import Mathlib

/-!
Verification of the layout-planning core of the gnome-dual-monitor-toggle
extension (src/lib/toggle.js, src/lib/logger.js).

The embedding mirrors the JavaScript source:
* positional tuples for monitors/modes become named structures;
* DBus integers stay `Int`, DBus doubles (scale, derived from the `d`-typed
  fields) are modelled as `Rat`;
* the snapshot object (string-keyed, insertion ordered) is an association
  list with unique keys, insertion keeping the original position;
* JavaScript string truthiness (`if (!modeId)`) is modelled explicitly:
  `null`/`undefined`/`""` are falsy;
* in-place array mutation (`fixPrimaryFlags`) becomes a function returning
  the updated list.
-/

namespace DualMonitor

/-- One entry of a physical monitor's mode list
(`m[0]` id, `m[1]` width, `m[2]` height, `m[6]['is-current']`,
`m[6]['is-preferred']`).  The refresh rate and scale hints are never read
by the toggle logic and are omitted. -/
structure Mode where
  id : String
  width : Int
  height : Int
  isCurrent : Bool
  isPreferred : Bool
deriving DecidableEq, Repr

/-- A physical monitor as reported by GetCurrentState:
`m[0] = [connector, vendor, product, serial]`, `m[1] =` mode list. -/
structure PhysMonitor where
  connector : String
  vendor : String
  product : String
  modes : List Mode
deriving DecidableEq, Repr

/-- One element of a logical monitor's assignment list `lm[5]`:
`[connector, modeId, props]` (the props are always `{}` where built). -/
structure Assignment where
  connector : String
  modeId : String
deriving DecidableEq, Repr

/-- A logical monitor tuple
`[x, y, scale, transform, isPrimary, monitors, properties]`. -/
structure LogicalMonitor where
  x : Int
  y : Int
  scale : Rat
  transform : Int
  isPrimary : Bool
  monitors : List Assignment
  props : List (String × String)
deriving DecidableEq, Repr

/-- A snapshot record: `{ x, y, scale, transform, isPrimary, modeId }`. -/
structure SnapEntry where
  x : Int
  y : Int
  scale : Rat
  transform : Int
  isPrimary : Bool
  modeId : Option String
deriving DecidableEq, Repr

/-- `this._snapshot`: a string-keyed object, kept as an insertion-ordered
association list with pairwise-distinct keys. -/
abbrev Snapshot := List (String × SnapEntry)

/-- The mutable fields of the toggle relevant to layout planning. -/
structure ToggleState where
  monitors : List PhysMonitor
  logicalMonitors : List LogicalMonitor
  snapshot : Snapshot
  selected : String
deriving DecidableEq, Repr

/-- Payload of one `GetCurrentStateAsync` reply (serial and the property
map are not used by any claim and are omitted). -/
structure FetchPayload where
  monitors : List PhysMonitor
  logicalMonitors : List LogicalMonitor
deriving DecidableEq, Repr

/-- JavaScript `Math.round`: round half towards positive infinity. -/
def jsRound (q : Rat) : Int := ⌊q + 1 / 2⌋

/-- JavaScript truthiness of a string-or-null value: `null`, `undefined`
and `""` are falsy. -/
def truthyStr : Option String → Option String
  | some s => if s = "" then none else some s
  | none => none

/-- `normalizePositions` (toggle.js:23): shift all positions so that
`min(x) = 0`, `min(y) = 0`; the source initialises the running minima with
`Infinity`, so for a non-empty list they are the minima over all entries. -/
def normalizePositions : List LogicalMonitor → List LogicalMonitor
  | [] => []
  | lm :: rest =>
    let minX := (rest.map (fun l => l.x)).foldl min lm.x
    let minY := (rest.map (fun l => l.y)).foldl min lm.y
    if minX = 0 ∧ minY = 0 then lm :: rest
    else (lm :: rest).map (fun l => { l with x := l.x - minX, y := l.y - minY })

/-- The loop of `fixPrimaryFlags` (toggle.js:42-48): `first` records
whether no primary entry has been seen yet. -/
def goFix : List LogicalMonitor → Bool → List LogicalMonitor
  | [], _ => []
  | lm :: rest, first =>
    if lm.isPrimary then
      (if first then lm else { lm with isPrimary := false }) :: goFix rest false
    else
      lm :: goFix rest first

/-- `fixPrimaryFlags` (toggle.js:39): if more than one entry is primary,
keep only the first as primary. -/
def fixPrimaryFlags (lms : List LogicalMonitor) : List LogicalMonitor :=
  if (lms.filter (fun lm => lm.isPrimary)).length ≤ 1 then lms
  else goFix lms true

/-- `lms[0][4] = true` when no entry is primary (toggle.js:418-420 and
:493-495; the `length > 0` guard of the second site is the `[]` case). -/
def ensurePrimary : List LogicalMonitor → List LogicalMonitor
  | [] => []
  | lm :: rest =>
    if (lm :: rest).any (fun l => l.isPrimary) then lm :: rest
    else { lm with isPrimary := true } :: rest

/-- `this._monitors.find(p => p[0][0] === connector)`. -/
def findPhys (ms : List PhysMonitor) (conn : String) : Option PhysMonitor :=
  ms.find? (fun p => p.connector == conn)

/-- `this._snapshot[connector]` (association-list lookup). -/
def snapLookup (ss : Snapshot) (conn : String) : Option SnapEntry :=
  (ss.find? (fun p => p.1 == conn)).map (fun p => p.2)

/-- Fallback chain of `_resolveModeId` (toggle.js:364-369):
mode flagged `is-current`, else `is-preferred`, else the first mode.
All mode ids are strings, so the `typeof m[0] === 'string'` filters are
the identity. -/
def resolveFromPhys (phys : PhysMonitor) : Option String :=
  match phys.modes.find? (fun m => m.isCurrent) with
  | some m => some m.id
  | none =>
    match phys.modes.find? (fun m => m.isPreferred) with
    | some m => some m.id
    | none => phys.modes.head?.map (fun m => m.id)

/-- `_resolveModeId` (toggle.js:358-370).  The saved snapshot mode is used
when `snapMode && phys[1].some(m => m[0] === snapMode)` holds, i.e. when it
is a non-empty string still offered by the physical monitor. -/
def resolveModeId (ms : List PhysMonitor) (ss : Snapshot) (conn : String) : Option String :=
  match findPhys ms conn with
  | none => none
  | some phys =>
    match snapLookup ss conn >>= (fun s => s.modeId) with
    | some sid =>
      if sid ≠ "" ∧ phys.modes.any (fun m => m.id == sid) then some sid
      else resolveFromPhys phys
    | none => resolveFromPhys phys

/-- `this._logicalMonitors.some(lm => lm[5].some(m => m[0] === conn))`. -/
def isActive (lms : List LogicalMonitor) (conn : String) : Bool :=
  lms.any (fun lm => lm.monitors.any (fun a => a.connector == conn))

/-- `this._monitors.length > 0 && this._monitors.every(... some assignment
carries the connector ...)` (toggle.js:250-252). -/
def allActive (ms : List PhysMonitor) (lms : List LogicalMonitor) : Bool :=
  !ms.isEmpty && ms.all (fun p => lms.any (fun lm =>
    lm.monitors.any (fun a => a.connector == p.connector)))

/-- Assignment into the snapshot object: a JavaScript object keeps the
original position of an existing key and appends a new key. -/
def snapInsert (ss : Snapshot) (conn : String) (e : SnapEntry) : Snapshot :=
  if ss.any (fun p => p.1 == conn) then
    ss.map (fun p => if p.1 == conn then (conn, e) else p)
  else ss ++ [(conn, e)]

/-- Snapshot rebuild (toggle.js:254-272): for every assignment of every
logical monitor, record position/scale/transform/primary and the mode
currently flagged `is-current` on the matching physical monitor. -/
def buildSnapshot (ms : List PhysMonitor) (lms : List LogicalMonitor) : Snapshot :=
  lms.foldl (fun ss lm =>
    lm.monitors.foldl (fun ss a =>
      let modeId := (findPhys ms a.connector).bind
        (fun p => (p.modes.find? (fun m => m.isCurrent)).map (fun m => m.id))
      snapInsert ss a.connector
        ⟨lm.x, lm.y, lm.scale, lm.transform, lm.isPrimary, modeId⟩) ss) []

/-- State update of `_getMonitorConfig` (toggle.js:226, 244-276): repair
the primary flags of the fetched logical monitors, replace the cached
registry wholesale, and overwrite the snapshot only when all physical
monitors are logically active. -/
def ingest (st : ToggleState) (f : FetchPayload) : ToggleState :=
  let lms := fixPrimaryFlags f.logicalMonitors
  { st with
    monitors := f.monitors
    logicalMonitors := lms
    snapshot := if allActive f.monitors lms then buildSnapshot f.monitors lms else st.snapshot }

/-- Abort causes of `_toggleMonitor` that return before the submit call. -/
inductive AbortReason where
  | noMonitorsLeft
  | physicalMonitorNotFound
  | noModeForMonitor
  | noValidLayoutAfterResolve
deriving DecidableEq, Repr

/-- The logical monitors surviving the removal of the selected connector
(toggle.js:397-403). -/
def disSurvivors (lms : List LogicalMonitor) (sel : String) : List LogicalMonitor :=
  lms.filterMap (fun lm =>
    if (lm.monitors.filter (fun a => !(a.connector == sel))).isEmpty then none
    else some { lm with monitors := lm.monitors.filter (fun a => !(a.connector == sel)) })

/-- `finalLogicalMonitors[0][0] = 0; [0][1] = 0` when exactly one logical
monitor remains (toggle.js:412-415). -/
def originIfSingle : List LogicalMonitor → List LogicalMonitor
  | [lm] => [{ lm with x := 0, y := 0 }]
  | other => other

/-- Disable branch (toggle.js:397-420): drop the selected connector's
assignments, drop emptied logical monitors, abort when nothing remains,
move a sole survivor to the origin, and promote the first monitor when no
primary survives. -/
def planDisable (lms : List LogicalMonitor) (sel : String) : Option (List LogicalMonitor) :=
  if (disSurvivors lms sel).isEmpty then none
  else some (ensurePrimary (originIfSingle (disSurvivors lms sel)))

/-- Snapshot restore branch of enable (toggle.js:433-443): rebuild every
logical monitor from the snapshot, re-resolving each mode id and skipping
connectors whose mode does not resolve (`if (!modeId) continue`, string
truthiness) or that are no longer physically present. -/
def planEnableSnapshot (ms : List PhysMonitor) (ss : Snapshot) : List LogicalMonitor :=
  ss.filterMap (fun cs =>
    match truthyStr (resolveModeId ms ss cs.1) with
    | none => none
    | some mid =>
      if ms.any (fun p => p.connector == cs.1) then
        some ⟨cs.2.x, cs.2.y, cs.2.scale, cs.2.transform, cs.2.isPrimary, [⟨cs.1, mid⟩], []⟩
      else none)

/-- Best-effort scale/transform read from monitors.xml (xmlReader.js);
external input of the fallback branch. -/
structure XmlConf where
  scale : Rat
  transform : Int
deriving DecidableEq, Repr

/-- The contribution of one current logical monitor to the rightmost-edge
scan (toggle.js:461-470): defined only when the first assigned connector
resolves a truthy mode offered by its physical monitor. -/
def rightEdgeContribution (ms : List PhysMonitor) (ss : Snapshot) (lm : LogicalMonitor) :
    Option Int :=
  match lm.monitors.head? with
  | none => none
  | some a =>
    match truthyStr (resolveModeId ms ss a.connector), findPhys ms a.connector with
    | some mode, some phys =>
      match phys.modes.find? (fun md => md.id == mode) with
      | some m => some (lm.x + jsRound ((m.width : Rat) / lm.scale))
      | none => none
    | _, _ => none

/-- Fallback branch of enable (toggle.js:444-488): re-map the current
logical monitors (dropping unresolvable ones), then append the selected
connector at the rightmost edge of the current layout, at `y = 0`,
non-primary, with scale/transform from monitors.xml or the defaults. -/
def planEnableFallback (ms : List PhysMonitor) (ss : Snapshot) (lms : List LogicalMonitor)
    (sel : String) (xml : Option XmlConf) : Except AbortReason (List LogicalMonitor) :=
  match findPhys ms sel with
  | none => .error .physicalMonitorNotFound
  | some _ =>
    let scale : Rat := match xml with | some c => c.scale | none => 1
    let transform : Int := match xml with | some c => c.transform | none => 0
    let maxRight : Int := lms.foldl (fun acc lm =>
      match rightEdgeContribution ms ss lm with
      | some v => max acc v
      | none => acc) 0
    let mapped := lms.filterMap (fun lm =>
      match lm.monitors.head? with
      | none => none
      | some a =>
        match truthyStr (resolveModeId ms ss a.connector) with
        | none => none
        | some mid =>
          some ⟨lm.x, lm.y, lm.scale, lm.transform, lm.isPrimary, [⟨a.connector, mid⟩], []⟩)
    match truthyStr (resolveModeId ms ss sel) with
    | none => .error .noModeForMonitor
    | some mid => .ok (mapped ++ [⟨maxRight, 0, scale, transform, false, [⟨sel, mid⟩], []⟩])

/-- `const snap = this._snapshot[this._monitor]; snap &&
Object.keys(this._snapshot).length > 1` (toggle.js:426-427). -/
def hasUsableSnapshot (ss : Snapshot) (sel : String) : Bool :=
  (ss.find? (fun p => p.1 == sel)).isSome && decide (1 < ss.length)

/-- The candidate layout `_toggleMonitor` builds before the finalization
step: the disable branch, or one of the two enable branches followed by
the primary repair and promotion (toggle.js:392-496). -/
def toggleCandidate (st : ToggleState) (xml : Option XmlConf) :
    Except AbortReason (List LogicalMonitor) :=
  if isActive st.logicalMonitors st.selected then
    match planDisable st.logicalMonitors st.selected with
    | none => .error .noMonitorsLeft
    | some fl => .ok fl
  else if hasUsableSnapshot st.snapshot st.selected then
    .ok (ensurePrimary (fixPrimaryFlags (planEnableSnapshot st.monitors st.snapshot)))
  else
    match planEnableFallback st.monitors st.snapshot st.logicalMonitors st.selected xml with
    | .error e => .error e
    | .ok fl => .ok (ensurePrimary (fixPrimaryFlags fl))

/-- One step of the final mode-resolution pass (toggle.js:499-505). -/
def resolveEntry (ms : List PhysMonitor) (ss : Snapshot) (lm : LogicalMonitor) :
    Option LogicalMonitor :=
  match lm.monitors.head? with
  | none => none
  | some a =>
    match truthyStr (resolveModeId ms ss a.connector) with
    | none => none
    | some mid =>
      some ⟨lm.x, lm.y, lm.scale, lm.transform, lm.isPrimary, [⟨a.connector, mid⟩], []⟩

/-- Finalization (toggle.js:499-514): re-resolve every assignment's mode
id, drop unresolvable monitors, abort when nothing remains, then
normalize positions. -/
def finalizeLayout (ms : List PhysMonitor) (ss : Snapshot) (lms : List LogicalMonitor) :
    Option (List LogicalMonitor) :=
  if (lms.filterMap (resolveEntry ms ss)).isEmpty then none
  else some (normalizePositions (lms.filterMap (resolveEntry ms ss)))

/-- Result of one `_toggleMonitor` run: either the layout passed to
`ApplyMonitorsConfigAsync`, or an abort with no submission. -/
inductive ToggleOutcome where
  | submit (layout : List LogicalMonitor)
  | abort (reason : AbortReason)
deriving DecidableEq, Repr

/-- The layout decision of `_toggleMonitor` on the state it holds after
its initial fetch (toggle.js:386-530). -/
def toggleOp (st : ToggleState) (xml : Option XmlConf) : ToggleOutcome :=
  match toggleCandidate st xml with
  | .error r => .abort r
  | .ok cand =>
    match finalizeLayout st.monitors st.snapshot cand with
    | none => .abort .noValidLayoutAfterResolve
    | some layout => .submit layout

/-- A user-triggered toggle: `_toggleMonitor` first refreshes its state
via `_getMonitorConfig` (toggle.js:383) and then decides the layout. -/
def toggleFlow (st : ToggleState) (f : FetchPayload) (xml : Option XmlConf) : ToggleOutcome :=
  toggleOp (ingest st f) xml

/-- One step of `_makePrimary`'s rebuild (toggle.js:637-642): keep the
monitor when its first connector resolves a truthy mode, with
`isPrimary` replaced by "contains the target". -/
def mpEntry (ms : List PhysMonitor) (ss : Snapshot) (tgt : String)
    (lm : LogicalMonitor) : Option LogicalMonitor :=
  match lm.monitors.head? with
  | none => none
  | some a =>
    match truthyStr (resolveModeId ms ss a.connector) with
    | none => none
    | some mid =>
      some ⟨lm.x, lm.y, lm.scale, lm.transform,
        lm.monitors.any (fun m => m.connector == tgt), [⟨a.connector, mid⟩], []⟩

/-- `_makePrimary`'s rebuilt logical monitor list (toggle.js:636-643). -/
def planMakePrimary (ms : List PhysMonitor) (ss : Snapshot) (lms : List LogicalMonitor)
    (tgt : String) : List LogicalMonitor :=
  lms.filterMap (mpEntry ms ss tgt)

/-- `_makePrimary` (toggle.js:627-663): layout submitted for the primary
swap, `none` when the rebuilt list is empty (silent return, no submit). -/
def makePrimaryOp (st : ToggleState) (tgt : String) : Option (List LogicalMonitor) :=
  if (planMakePrimary st.monitors st.snapshot st.logicalMonitors tgt).isEmpty then none
  else some (normalizePositions (planMakePrimary st.monitors st.snapshot st.logicalMonitors tgt))

/-- The make-primary flow re-fetches before planning (toggle.js:632). -/
def makePrimaryFlow (st : ToggleState) (f : FetchPayload) (tgt : String) :
    Option (List LogicalMonitor) :=
  makePrimaryOp (ingest st f) tgt

/-! ### Helper lemmas about the primary-flag repair -/

/-- Predicate picked out by `lm[4]`. -/
def isPrim (lm : LogicalMonitor) : Bool := lm.isPrimary

theorem countP_goFix_false (l : List LogicalMonitor) :
    (goFix l false).countP isPrim = 0 := by
  induction l with
  | nil => simp [goFix]
  | cons lm rest ih =>
    by_cases h : lm.isPrimary
    · simp [goFix, h, List.countP_cons, ih, isPrim]
    · simp [goFix, h, List.countP_cons, ih, isPrim]

theorem countP_goFix_true (l : List LogicalMonitor) :
    (goFix l true).countP isPrim = min 1 (l.countP isPrim) := by
  induction l with
  | nil => simp [goFix]
  | cons lm rest ih =>
    by_cases h : lm.isPrimary
    · simp [goFix, h, List.countP_cons, countP_goFix_false, isPrim]
    · simp [goFix, h, List.countP_cons, ih, isPrim]

theorem find?_goFix_true (l : List LogicalMonitor) :
    (goFix l true).find? isPrim = l.find? isPrim := by
  induction l with
  | nil => simp [goFix]
  | cons lm rest ih =>
    by_cases h : lm.isPrimary
    · simp [goFix, h, List.find?_cons, isPrim]
    · simp [goFix, h, List.find?_cons, isPrim, ih]

theorem fixPrimaryFlags_eq_of_le_one {l : List LogicalMonitor}
    (h : l.countP isPrim ≤ 1) : fixPrimaryFlags l = l := by
  rw [fixPrimaryFlags, if_pos]
  rwa [← List.countP_eq_length_filter]

theorem countP_fixPrimaryFlags_le_one (l : List LogicalMonitor) :
    (fixPrimaryFlags l).countP isPrim ≤ 1 := by
  rw [fixPrimaryFlags]
  split
  · rwa [← List.countP_eq_length_filter] at *
  · rw [countP_goFix_true]; omega

theorem countP_fixPrimaryFlags_of_pos {l : List LogicalMonitor}
    (h : 0 < l.countP isPrim) : (fixPrimaryFlags l).countP isPrim = 1 := by
  rw [fixPrimaryFlags]
  split
  · rename_i hle
    rw [← List.countP_eq_length_filter] at hle
    unfold isPrim at h ⊢
    omega
  · rw [countP_goFix_true]; omega

theorem find?_fixPrimaryFlags (l : List LogicalMonitor) :
    (fixPrimaryFlags l).find? isPrim = l.find? isPrim := by
  rw [fixPrimaryFlags]
  split
  · rfl
  · exact find?_goFix_true l

/-- The per-entry frame of the primary repair: an entry is either kept as
is, or was primary and only its `isPrimary` flag is cleared. -/
def primaryFrame (a b : LogicalMonitor) : Prop :=
  b.x = a.x ∧ b.y = a.y ∧ b.scale = a.scale ∧ b.transform = a.transform ∧
  b.monitors = a.monitors ∧ b.props = a.props ∧
  (b.isPrimary = a.isPrimary ∨ (a.isPrimary = true ∧ b.isPrimary = false))

theorem primaryFrame_refl (a : LogicalMonitor) : primaryFrame a a :=
  ⟨rfl, rfl, rfl, rfl, rfl, rfl, Or.inl rfl⟩

theorem goFix_frame (l : List LogicalMonitor) (first : Bool) :
    List.Forall₂ primaryFrame l (goFix l first) := by
  induction l generalizing first with
  | nil => simp [goFix]
  | cons lm rest ih =>
    by_cases h : lm.isPrimary
    · rw [goFix, if_pos h]
      refine List.Forall₂.cons ?_ (ih false)
      cases first with
      | true => exact primaryFrame_refl lm
      | false => exact ⟨rfl, rfl, rfl, rfl, rfl, rfl, Or.inr ⟨h, rfl⟩⟩
    · rw [goFix, if_neg h]
      exact List.Forall₂.cons (primaryFrame_refl lm) (ih first)

theorem fixPrimaryFlags_frame_all (l : List LogicalMonitor) :
    List.Forall₂ primaryFrame l (fixPrimaryFlags l) := by
  rw [fixPrimaryFlags]
  split
  · exact List.forall₂_same.2 (fun a _ => primaryFrame_refl a)
  · exact goFix_frame l true

/-! ### C3 / C10: the primary-flag repair -/

/-- C3: for every logical-monitor list with at least one primary entry,
applying `fixPrimaryFlags` one or more times yields a list with exactly
one primary entry, and that entry is the first entry that was already
primary in input order (the first match of `find?`). -/
theorem claim_fixPrimaryFlags_repair (lms : List LogicalMonitor)
    (h : 0 < lms.countP isPrim) (n : ℕ) :
    (fixPrimaryFlags^[n + 1] lms).countP isPrim = 1 ∧
    (fixPrimaryFlags^[n + 1] lms).find? isPrim = lms.find? isPrim := by
  induction n with
  | zero =>
    simpa using ⟨countP_fixPrimaryFlags_of_pos h, find?_fixPrimaryFlags lms⟩
  | succ n ih =>
    rw [Function.iterate_succ_apply']
    rw [fixPrimaryFlags_eq_of_le_one (le_of_eq ih.1)]
    exact ih

theorem claim_fixPrimaryFlags_repair_witness :
    0 < ([⟨0, 0, 1, 0, true, [], []⟩, ⟨1, 0, 1, 0, true, [], []⟩] :
      List LogicalMonitor).countP isPrim ∧
    (fixPrimaryFlags^[1] [⟨0, 0, 1, 0, true, [], []⟩, ⟨1, 0, 1, 0, true, [], []⟩]).countP
      isPrim = 1 ∧
    (fixPrimaryFlags^[1] [⟨0, 0, 1, 0, true, [], []⟩, ⟨1, 0, 1, 0, true, [], []⟩]).find?
      isPrim = ([⟨0, 0, 1, 0, true, [], []⟩, ⟨1, 0, 1, 0, true, [], []⟩] :
        List LogicalMonitor).find? isPrim :=
  ⟨by decide, claim_fixPrimaryFlags_repair _ (by decide) 0⟩

/-- C10: `fixPrimaryFlags` returns its input unchanged when at most one
entry is primary; and in every case each output entry keeps the input
entry's `x`, `y`, `scale`, `transform`, assignments and properties, with
`isPrimary` either kept or cleared from `true` to `false`; no entry is
added or removed. -/
theorem claim_fixPrimaryFlags_frame (lms : List LogicalMonitor) :
    (lms.countP isPrim ≤ 1 → fixPrimaryFlags lms = lms) ∧
    (fixPrimaryFlags lms).length = lms.length ∧
    List.Forall₂ primaryFrame lms (fixPrimaryFlags lms) :=
  ⟨fun h => fixPrimaryFlags_eq_of_le_one h,
   ((fixPrimaryFlags_frame_all lms).length_eq).symm,
   fixPrimaryFlags_frame_all lms⟩

theorem claim_fixPrimaryFlags_frame_witness :
    fixPrimaryFlags [(⟨7, 8, 1, 0, true, [⟨"A", "m1"⟩], []⟩ : LogicalMonitor)] =
      [⟨7, 8, 1, 0, true, [⟨"A", "m1"⟩], []⟩] :=
  (claim_fixPrimaryFlags_frame _).1 (by decide)

/-! ### Helper lemmas about folded minima -/

theorem foldl_min_le_init (a : ℤ) (l : List ℤ) : l.foldl min a ≤ a := by
  induction l generalizing a with
  | nil => exact le_refl a
  | cons x xs ih =>
    calc (x :: xs).foldl min a = xs.foldl min (min a x) := rfl
    _ ≤ min a x := ih (min a x)
    _ ≤ a := min_le_left a x

theorem foldl_min_le_mem {x : ℤ} {l : List ℤ} (a : ℤ) (hx : x ∈ l) :
    l.foldl min a ≤ x := by
  induction l generalizing a with
  | nil => cases hx
  | cons y ys ih =>
    rcases List.mem_cons.1 hx with h | h
    · subst h
      calc (x :: ys).foldl min a = ys.foldl min (min a x) := rfl
      _ ≤ min a x := foldl_min_le_init _ ys
      _ ≤ x := min_le_right a x
    · exact ih (min a y) h

theorem foldl_min_mem (a : ℤ) (l : List ℤ) :
    l.foldl min a = a ∨ l.foldl min a ∈ l := by
  induction l generalizing a with
  | nil => exact Or.inl rfl
  | cons x xs ih =>
    rcases ih (min a x) with h | h
    · rcases min_cases a x with ⟨hm, _⟩ | ⟨hm, _⟩
      · exact Or.inl (by rw [List.foldl_cons, h, hm])
      · exact Or.inr (by rw [List.foldl_cons, h, hm]; exact List.mem_cons_self x xs)
    · exact Or.inr (List.mem_cons_of_mem x h)

theorem foldl_min_eq_zero {a : ℤ} {l : List ℤ} (ha : 0 ≤ a)
    (hl : ∀ x ∈ l, 0 ≤ x) (hzero : a = 0 ∨ ∃ x ∈ l, x = 0) :
    l.foldl min a = 0 := by
  have hle : l.foldl min a ≤ 0 := by
    rcases hzero with h | ⟨x, hx, hx0⟩
    · simpa [h] using foldl_min_le_init a l
    · simpa [hx0] using foldl_min_le_mem a hx
  have hge : 0 ≤ l.foldl min a := by
    rcases foldl_min_mem a l with h | h
    · omega
    · exact hl _ h
  omega

/-! ### C4: position normalization -/

/-- The translation `normalizePositions` applies to one entry. -/
def shiftBy (dx dy : ℤ) (l : LogicalMonitor) : LogicalMonitor :=
  { l with x := l.x - dx, y := l.y - dy }

theorem shiftBy_zero (l : LogicalMonitor) : shiftBy 0 0 l = l := by
  cases l; simp [shiftBy]

/-- C4: for every non-empty logical-monitor list, `normalizePositions`
translates all entries by one common `(dx, dy)` — so every pairwise
difference of `x` coordinates and of `y` coordinates, and every other
field, is unchanged — and the result has minimum `x` equal to `0` and
minimum `y` equal to `0`. -/
theorem claim_normalizePositions_spec (lms : List LogicalMonitor) (h : lms ≠ []) :
    ∃ dx dy : ℤ,
      normalizePositions lms = lms.map (shiftBy dx dy) ∧
      (∀ lm ∈ normalizePositions lms, 0 ≤ lm.x ∧ 0 ≤ lm.y) ∧
      (∃ lm ∈ normalizePositions lms, lm.x = 0) ∧
      (∃ lm ∈ normalizePositions lms, lm.y = 0) := by
  obtain ⟨lm, rest, rfl⟩ := List.exists_cons_of_ne_nil h
  set minX := (rest.map (fun l => l.x)).foldl min lm.x with hminX
  set minY := (rest.map (fun l => l.y)).foldl min lm.y with hminY
  have hminX_le : ∀ l ∈ lm :: rest, minX ≤ l.x := by
    intro l hl
    rcases List.mem_cons.1 hl with rfl | hl
    · exact foldl_min_le_init _ _
    · exact foldl_min_le_mem _ (List.mem_map_of_mem (fun l => l.x) hl)
  have hminY_le : ∀ l ∈ lm :: rest, minY ≤ l.y := by
    intro l hl
    rcases List.mem_cons.1 hl with rfl | hl
    · exact foldl_min_le_init _ _
    · exact foldl_min_le_mem _ (List.mem_map_of_mem (fun l => l.y) hl)
  have hminX_mem : ∃ l ∈ lm :: rest, l.x = minX := by
    rcases foldl_min_mem lm.x (rest.map (fun l => l.x)) with hm | hm
    · exact ⟨lm, List.mem_cons_self _ _, hm.symm⟩
    · obtain ⟨l, hl, hlx⟩ := List.mem_map.1 hm
      exact ⟨l, List.mem_cons_of_mem _ hl, hlx⟩
  have hminY_mem : ∃ l ∈ lm :: rest, l.y = minY := by
    rcases foldl_min_mem lm.y (rest.map (fun l => l.y)) with hm | hm
    · exact ⟨lm, List.mem_cons_self _ _, hm.symm⟩
    · obtain ⟨l, hl, hly⟩ := List.mem_map.1 hm
      exact ⟨l, List.mem_cons_of_mem _ hl, hly⟩
  by_cases hz : minX = 0 ∧ minY = 0
  · refine ⟨0, 0, ?_, ?_, ?_, ?_⟩
    · rw [List.map_congr_left (fun a _ => shiftBy_zero a), List.map_id',
        normalizePositions, if_pos hz]
    · rw [normalizePositions, if_pos hz]
      intro l hl
      exact ⟨hz.1 ▸ hminX_le l hl, hz.2 ▸ hminY_le l hl⟩
    · rw [normalizePositions, if_pos hz]
      obtain ⟨l, hl, hlx⟩ := hminX_mem
      exact ⟨l, hl, by omega⟩
    · rw [normalizePositions, if_pos hz]
      obtain ⟨l, hl, hly⟩ := hminY_mem
      exact ⟨l, hl, by omega⟩
  · have hnorm : normalizePositions (lm :: rest) = (lm :: rest).map (shiftBy minX minY) := by
      rw [normalizePositions, if_neg hz]
      rfl
    refine ⟨minX, minY, hnorm, ?_, ?_, ?_⟩
    · intro l hl
      rw [hnorm] at hl
      obtain ⟨l0, hl0, rfl⟩ := List.mem_map.1 hl
      have hx := hminX_le l0 hl0
      have hy := hminY_le l0 hl0
      simp only [shiftBy]
      omega
    · obtain ⟨l0, hl0, hlx⟩ := hminX_mem
      refine ⟨shiftBy minX minY l0, ?_, ?_⟩
      · rw [hnorm]; exact List.mem_map_of_mem _ hl0
      · simp only [shiftBy]; omega
    · obtain ⟨l0, hl0, hly⟩ := hminY_mem
      refine ⟨shiftBy minX minY l0, ?_, ?_⟩
      · rw [hnorm]; exact List.mem_map_of_mem _ hl0
      · simp only [shiftBy]; omega

theorem claim_normalizePositions_spec_witness :
    ∃ dx dy : ℤ,
      normalizePositions [⟨100, 50, 1, 0, true, [], []⟩, ⟨300, 80, 1, 0, false, [], []⟩] =
        ([⟨100, 50, 1, 0, true, [], []⟩, ⟨300, 80, 1, 0, false, [], []⟩] :
          List LogicalMonitor).map (shiftBy dx dy) ∧
      (∀ lm ∈ normalizePositions
          [⟨100, 50, 1, 0, true, [], []⟩, ⟨300, 80, 1, 0, false, [], []⟩],
        0 ≤ lm.x ∧ 0 ≤ lm.y) ∧
      (∃ lm ∈ normalizePositions
          [⟨100, 50, 1, 0, true, [], []⟩, ⟨300, 80, 1, 0, false, [], []⟩], lm.x = 0) ∧
      (∃ lm ∈ normalizePositions
          [⟨100, 50, 1, 0, true, [], []⟩, ⟨300, 80, 1, 0, false, [], []⟩], lm.y = 0) :=
  claim_normalizePositions_spec _ (by decide)

/-! ### C5: a layout with zero logical monitors is never submitted -/

theorem normalizePositions_length (l : List LogicalMonitor) :
    (normalizePositions l).length = l.length := by
  cases l with
  | nil => rfl
  | cons lm rest =>
    rw [normalizePositions]
    split
    · rfl
    · rw [List.length_map]

theorem normalizePositions_ne_nil {l : List LogicalMonitor} (h : l ≠ []) :
    normalizePositions l ≠ [] := by
  intro hcon
  have := normalizePositions_length l
  rw [hcon] at this
  exact h (List.length_eq_zero.1 this.symm)

theorem finalizeLayout_some_ne_nil {ms : List PhysMonitor} {ss : Snapshot}
    {lms layout : List LogicalMonitor}
    (h : finalizeLayout ms ss lms = some layout) : layout ≠ [] := by
  rw [finalizeLayout] at h
  split at h
  · exact absurd h (by simp)
  · rename_i hne
    rw [Option.some_inj] at h
    subst h
    exact normalizePositions_ne_nil (by simpa [List.isEmpty_iff] using hne)

theorem makePrimaryOp_some_ne_nil {st : ToggleState} {tgt : String}
    {layout : List LogicalMonitor}
    (h : makePrimaryOp st tgt = some layout) : layout ≠ [] := by
  rw [makePrimaryOp] at h
  split at h
  · exact absurd h (by simp)
  · rename_i hne
    rw [Option.some_inj] at h
    subst h
    exact normalizePositions_ne_nil (by simpa [List.isEmpty_iff] using hne)

/-- C5: a layout with zero logical monitors is never passed to the submit
call: every submitted toggle layout is non-empty; when the disable branch
empties the layout the operation aborts with `noMonitorsLeft` before
submitting; when finalization empties the candidate it aborts with
`noValidLayoutAfterResolve`; and the make-primary flow never submits an
empty layout either. -/
theorem claim_no_empty_submission (st : ToggleState) (f : FetchPayload)
    (xml : Option XmlConf) (tgt : String) :
    (∀ layout, toggleFlow st f xml = .submit layout → layout ≠ []) ∧
    (isActive (ingest st f).logicalMonitors (ingest st f).selected = true →
      planDisable (ingest st f).logicalMonitors (ingest st f).selected = none →
      toggleFlow st f xml = .abort .noMonitorsLeft) ∧
    (∀ cand, toggleCandidate (ingest st f) xml = .ok cand →
      finalizeLayout (ingest st f).monitors (ingest st f).snapshot cand = none →
      toggleFlow st f xml = .abort .noValidLayoutAfterResolve) ∧
    (∀ layout, makePrimaryFlow st f tgt = some layout → layout ≠ []) := by
  refine ⟨?_, ?_, ?_, ?_⟩
  · intro layout h
    rw [toggleFlow, toggleOp] at h
    split at h
    · exact absurd h (by simp)
    · split at h
      · exact absurd h (by simp)
      · rename_i hfin
        cases h
        exact finalizeLayout_some_ne_nil hfin
  · intro hact hplan
    simp only [toggleFlow, toggleOp, toggleCandidate, if_pos hact, hplan]
  · intro cand hcand hfin
    simp only [toggleFlow, toggleOp, hcand, hfin]
  · intro layout h
    exact makePrimaryOp_some_ne_nil h

theorem claim_no_empty_submission_witness :
    isActive (ingest ⟨[⟨"A", "V", "P", [⟨"m1", 1920, 1080, true, false⟩]⟩],
        [⟨0, 0, 1, 0, true, [⟨"A", "m1"⟩], []⟩], [], "A"⟩
        ⟨[⟨"A", "V", "P", [⟨"m1", 1920, 1080, true, false⟩]⟩],
        [⟨0, 0, 1, 0, true, [⟨"A", "m1"⟩], []⟩]⟩).logicalMonitors
      (ingest ⟨[⟨"A", "V", "P", [⟨"m1", 1920, 1080, true, false⟩]⟩],
        [⟨0, 0, 1, 0, true, [⟨"A", "m1"⟩], []⟩], [], "A"⟩
        ⟨[⟨"A", "V", "P", [⟨"m1", 1920, 1080, true, false⟩]⟩],
        [⟨0, 0, 1, 0, true, [⟨"A", "m1"⟩], []⟩]⟩).selected = true ∧
    toggleFlow ⟨[⟨"A", "V", "P", [⟨"m1", 1920, 1080, true, false⟩]⟩],
        [⟨0, 0, 1, 0, true, [⟨"A", "m1"⟩], []⟩], [], "A"⟩
      ⟨[⟨"A", "V", "P", [⟨"m1", 1920, 1080, true, false⟩]⟩],
        [⟨0, 0, 1, 0, true, [⟨"A", "m1"⟩], []⟩]⟩ none =
      .abort .noMonitorsLeft :=
  ⟨by decide, (claim_no_empty_submission _ _ none "A").2.1 (by decide) (by decide)⟩

/-! ### C8: snapshot persistence -/

/-- The full-coverage condition stated on the raw fetch payload: every
known physical monitor's connector appears in some logical monitor's
assignment set. -/
def coveredAtFetch (f : FetchPayload) : Bool :=
  f.monitors.all (fun p => f.logicalMonitors.any (fun lm =>
    lm.monitors.any (fun a => a.connector == p.connector)))

theorem goFix_any_assignments (q : List Assignment → Bool)
    (l : List LogicalMonitor) (first : Bool) :
    (goFix l first).any (fun lm => q lm.monitors) = l.any (fun lm => q lm.monitors) := by
  induction l generalizing first with
  | nil => rfl
  | cons lm rest ih =>
    by_cases h : lm.isPrimary
    · cases first with
      | true => simp [goFix, h, ih]
      | false => simp [goFix, h, ih]
    · simp [goFix, h, ih]

theorem fixPrimaryFlags_any_assignments (q : List Assignment → Bool)
    (l : List LogicalMonitor) :
    (fixPrimaryFlags l).any (fun lm => q lm.monitors) = l.any (fun lm => q lm.monitors) := by
  rw [fixPrimaryFlags]
  split
  · rfl
  · exact goFix_any_assignments q l true

theorem allActive_imp_covered {f : FetchPayload}
    (h : allActive f.monitors (fixPrimaryFlags f.logicalMonitors) = true) :
    coveredAtFetch f = true := by
  rw [allActive, Bool.and_eq_true] at h
  rw [coveredAtFetch, List.all_eq_true]
  intro p hp
  have := (List.all_eq_true.1 h.2) p hp
  rwa [fixPrimaryFlags_any_assignments (fun mons =>
    mons.any (fun a => a.connector == p.connector))] at this

/-- C8: the snapshot store is overwritten by a fetch only under full
coverage; under any non-covering fetch — and hence under any sequence of
non-covering fetches, such as those surrounding a disable operation — it
is left exactly unchanged. -/
theorem claim_snapshot_persistence (st : ToggleState) (f : FetchPayload)
    (fs : List FetchPayload) :
    ((ingest st f).snapshot ≠ st.snapshot → coveredAtFetch f = true) ∧
    (coveredAtFetch f = false → (ingest st f).snapshot = st.snapshot) ∧
    ((∀ g ∈ fs, coveredAtFetch g = false) → (fs.foldl ingest st).snapshot = st.snapshot) := by
  have key : ∀ (st' : ToggleState) (g : FetchPayload), coveredAtFetch g = false →
      (ingest st' g).snapshot = st'.snapshot := by
    intro st' g hg
    rw [ingest]
    simp only
    split
    · rename_i hcov
      exact absurd (allActive_imp_covered hcov) (by simp [hg])
    · rfl
  refine ⟨?_, key st f, ?_⟩
  · intro hne
    by_cases hcov : allActive f.monitors (fixPrimaryFlags f.logicalMonitors) = true
    · exact allActive_imp_covered hcov
    · exact absurd (by rw [ingest]; simp only; rw [if_neg hcov]) hne
  · intro hall
    induction fs generalizing st with
    | nil => rfl
    | cons g gs ih =>
      rw [List.foldl_cons, ih (ingest st g) (fun g' hg' => hall g' (List.mem_cons_of_mem g hg')),
        key st g (hall g (List.mem_cons_self g gs))]

theorem claim_snapshot_persistence_witness :
    coveredAtFetch ⟨[⟨"A", "V", "P", [⟨"m1", 1920, 1080, true, false⟩]⟩,
        ⟨"B", "V", "P", [⟨"m2", 1920, 1080, true, false⟩]⟩],
      [⟨0, 0, 1, 0, true, [⟨"A", "m1"⟩], []⟩]⟩ = false ∧
    (ingest ⟨[], [], [("A", ⟨3, 4, 1, 0, true, some "m1"⟩)], "B"⟩
      ⟨[⟨"A", "V", "P", [⟨"m1", 1920, 1080, true, false⟩]⟩,
        ⟨"B", "V", "P", [⟨"m2", 1920, 1080, true, false⟩]⟩],
      [⟨0, 0, 1, 0, true, [⟨"A", "m1"⟩], []⟩]⟩).snapshot =
      [("A", ⟨3, 4, 1, 0, true, some "m1"⟩)] :=
  ⟨by decide, (claim_snapshot_persistence _ _ []).2.1 (by decide)⟩

/-! ### C7: mode-id resolution priority -/

/-- Modelled from the claim's words (amended): priority order — (a) the
mode id recorded in the snapshot for the connector if that id is a
non-empty string still offered by the connector's physical monitor,
(b) the mode flagged current, (c) the mode flagged preferred, (d) the
first mode in the list; `none` when the connector is not among the known
physical monitors. -/
def resolveModeIdSpec (ms : List PhysMonitor) (ss : Snapshot) (conn : String) :
    Option String :=
  match findPhys ms conn with
  | none => none
  | some phys =>
    match snapLookup ss conn >>= (fun s => s.modeId) with
    | some sid =>
      if sid ≠ "" ∧ phys.modes.any (fun m => m.id == sid) then some sid
      else ((phys.modes.find? (fun m => m.isCurrent)).map Mode.id).orElse
        (fun _ => ((phys.modes.find? (fun m => m.isPreferred)).map Mode.id).orElse
          (fun _ => phys.modes.head?.map Mode.id))
    | none =>
      ((phys.modes.find? (fun m => m.isCurrent)).map Mode.id).orElse
        (fun _ => ((phys.modes.find? (fun m => m.isPreferred)).map Mode.id).orElse
          (fun _ => phys.modes.head?.map Mode.id))

theorem resolveFromPhys_eq_orElse (phys : PhysMonitor) :
    resolveFromPhys phys =
      ((phys.modes.find? (fun m => m.isCurrent)).map Mode.id).orElse
        (fun _ => ((phys.modes.find? (fun m => m.isPreferred)).map Mode.id).orElse
          (fun _ => phys.modes.head?.map Mode.id)) := by
  rw [resolveFromPhys]
  cases h1 : phys.modes.find? (fun m => m.isCurrent) with
  | some m => rfl
  | none =>
    cases h2 : phys.modes.find? (fun m => m.isPreferred) with
    | some m => rfl
    | none => rfl

/-- C7 (amended): `_resolveModeId` follows the claimed priority order,
with the snapshot-recorded id used only when it is a *non-empty* string
still offered by the physical monitor (JavaScript string truthiness skips
a recorded empty id), and returns no mode for unknown connectors. -/
theorem claim_resolveModeId_priority (ms : List PhysMonitor) (ss : Snapshot)
    (conn : String) : resolveModeId ms ss conn = resolveModeIdSpec ms ss conn := by
  rw [resolveModeId, resolveModeIdSpec]
  cases findPhys ms conn with
  | none => rfl
  | some phys =>
    cases snapLookup ss conn >>= (fun s => s.modeId) with
    | none => exact resolveFromPhys_eq_orElse phys
    | some sid =>
      simp only
      split
      · rfl
      · exact resolveFromPhys_eq_orElse phys

/-- C7 counterexample to the claim as stated: the snapshot records the
mode id `""` for connector `"A"`, and `""` is still offered by the
physical monitor, yet `_resolveModeId` does not return it — JavaScript
truthiness (`if (snapMode && ...)`) skips the empty string and the mode
flagged current (`"m2"`) is returned instead. -/
theorem claim_resolveModeId_priority_cex :
    (snapLookup [("A", ⟨0, 0, 1, 0, true, some ""⟩)] "A" >>= (fun s => s.modeId)) =
      some "" ∧
    (PhysMonitor.modes ⟨"A", "", "",
        [⟨"", 1920, 1080, false, false⟩, ⟨"m2", 1920, 1080, true, false⟩]⟩).any
      (fun m => m.id == "") = true ∧
    resolveModeId
      [⟨"A", "", "", [⟨"", 1920, 1080, false, false⟩, ⟨"m2", 1920, 1080, true, false⟩]⟩]
      [("A", ⟨0, 0, 1, 0, true, some ""⟩)] "A" = some "m2" ∧
    some "m2" ≠ some "" := by
  refine ⟨rfl, rfl, rfl, by decide⟩

/-! ### C6: fallback placement of an enabled monitor -/

/-- Modelled from the claim's words (amended): the rightmost edge of the
current layout — the maximum of `0` and, over the current logical
monitors whose first connector resolves an offered mode,
`x + round(width / scale)`. -/
def specRightmostEdge (ms : List PhysMonitor) (ss : Snapshot)
    (lms : List LogicalMonitor) : Int :=
  (lms.filterMap (rightEdgeContribution ms ss)).foldl max 0

theorem foldl_max_filterMap {α : Type} (f : α → Option Int) (l : List α) (a : Int) :
    l.foldl (fun acc x => match f x with | some v => max acc v | none => acc) a =
      (l.filterMap f).foldl max a := by
  induction l generalizing a with
  | nil => rfl
  | cons x xs ih =>
    cases h : f x with
    | some v => simp [List.filterMap_cons, h, ih]
    | none => simp [List.filterMap_cons, h, ih]

/-- C6 (amended): whenever the no-snapshot fallback branch of enable
produces a layout, the selected connector is the last entry, placed at
`x` equal to the maximum of `0` and, over the current logical monitors
with a resolvable mode, of `x + round(width / scale)`, at `y = 0`, with
`isPrimary = false`; in particular with no current logical monitors it is
placed at `(0, 0)`. -/
theorem claim_fallback_placement (ms : List PhysMonitor) (ss : Snapshot)
    (lms : List LogicalMonitor) (sel : String) (xml : Option XmlConf)
    (layout : List LogicalMonitor)
    (h : planEnableFallback ms ss lms sel xml = .ok layout) :
    ∃ e, layout.getLast? = some e ∧
      e.x = specRightmostEdge ms ss lms ∧ e.y = 0 ∧ e.isPrimary = false ∧
      (lms = [] → e.x = 0) := by
  rw [planEnableFallback.eq_def] at h
  cases hp : findPhys ms sel with
  | none => rw [hp] at h; exact absurd h (by simp)
  | some phys =>
    rw [hp] at h
    simp only at h
    cases hr : truthyStr (resolveModeId ms ss sel) with
    | none => rw [hr] at h; exact absurd h (by simp)
    | some mid =>
      rw [hr] at h
      simp only [Except.ok.injEq] at h
      subst h
      refine ⟨_, List.getLast?_concat _, ?_, rfl, rfl, ?_⟩
      · simp only [specRightmostEdge]
        exact foldl_max_filterMap (rightEdgeContribution ms ss) lms 0
      · intro hnil
        subst hnil
        rfl

theorem claim_fallback_placement_witness :
    ∃ e, (([⟨0, 0, 1, 0, false, [⟨"B", "m2"⟩], []⟩] : List LogicalMonitor)).getLast? =
        some e ∧
      e.x = specRightmostEdge [⟨"B", "", "", [⟨"m2", 1920, 1080, true, false⟩]⟩] []
        ([] : List LogicalMonitor) ∧
      e.y = 0 ∧ e.isPrimary = false ∧
      (([] : List LogicalMonitor) = [] → e.x = 0) :=
  claim_fallback_placement [⟨"B", "", "", [⟨"m2", 1920, 1080, true, false⟩]⟩] []
    [] "B" none [⟨0, 0, 1, 0, false, [⟨"B", "m2"⟩], []⟩] rfl

/-- Inputs of the C6 counterexample: one current logical monitor for
`"A"` at `x = 0` with scale `3`, whose current mode has width `1000`. -/
def cexMs6 : List PhysMonitor :=
  [⟨"A", "", "", [⟨"w1000", 1000, 500, true, false⟩]⟩,
   ⟨"B", "", "", [⟨"m2", 1920, 1080, true, false⟩]⟩]

/-- The current logical monitor of the C6 counterexample. -/
def cexLmA6 : LogicalMonitor := ⟨0, 0, 3, 0, true, [⟨"A", "w1000"⟩], []⟩

theorem cexJsRound : jsRound (((1000 : Int) : Rat) / 3) = 333 := by
  norm_num [jsRound, Int.floor_eq_iff]

/-- C6 counterexample to the claim as stated: the claim's formula
`x + width / scale` gives `0 + 1000 / 3` for the single current logical
monitor, but the code rounds (`Math.round(m[1] / lm[2])`) and places the
enabled connector `"B"` at `x = 333`, and `(333 : Rat) ≠ 0 + 1000 / 3`. -/
theorem claim_fallback_placement_cex :
    planEnableFallback cexMs6 [] [cexLmA6] "B" none =
      .ok [cexLmA6, ⟨333, 0, 1, 0, false, [⟨"B", "m2"⟩], []⟩] ∧
    ((333 : Rat) ≠ (0 : Rat) + 1000 / 3) := by
  constructor
  · have h0 : planEnableFallback cexMs6 [] [cexLmA6] "B" none =
        .ok [cexLmA6, ⟨max 0 (0 + jsRound (((1000 : Int) : Rat) / (3 : Rat))), 0, 1, 0,
          false, [⟨"B", "m2"⟩], []⟩] := by rfl
    rw [h0, cexJsRound]
    norm_num
  · norm_num

/-! ### Helper lemmas for the single-primary invariant (C2) -/

/-- A logical monitor whose first assigned connector resolves a truthy
mode id — exactly the entries the final resolution pass keeps. -/
def resolvesTruthy (ms : List PhysMonitor) (ss : Snapshot) (lm : LogicalMonitor) : Bool :=
  match lm.monitors.head? with
  | none => false
  | some a => (truthyStr (resolveModeId ms ss a.connector)).isSome

/-- Every candidate monitor survives the final resolution pass. -/
def allResolve (ms : List PhysMonitor) (ss : Snapshot) (lms : List LogicalMonitor) : Bool :=
  lms.all (resolvesTruthy ms ss)

/-- The entry the final resolution pass produces for a surviving monitor
(identity on non-surviving ones, which are never hit under
`allResolve`). -/
def resolvedOf (ms : List PhysMonitor) (ss : Snapshot) (lm : LogicalMonitor) :
    LogicalMonitor :=
  match lm.monitors.head? with
  | none => lm
  | some a =>
    match truthyStr (resolveModeId ms ss a.connector) with
    | none => lm
    | some mid => ⟨lm.x, lm.y, lm.scale, lm.transform, lm.isPrimary, [⟨a.connector, mid⟩], []⟩

theorem filterMap_eq_map_of {α β : Type} (f : α → Option β) (g : α → β) (l : List α)
    (h : ∀ x ∈ l, f x = some (g x)) : l.filterMap f = l.map g := by
  induction l with
  | nil => rfl
  | cons x xs ih =>
    rw [List.filterMap_cons, h x (List.mem_cons_self x xs), List.map_cons,
      ih (fun y hy => h y (List.mem_cons_of_mem x hy))]

theorem countP_map_congr {α β : Type} (g : α → β) (p : β → Bool) (q : α → Bool)
    (l : List α) (h : ∀ x ∈ l, p (g x) = q x) : (l.map g).countP p = l.countP q := by
  induction l with
  | nil => rfl
  | cons x xs ih =>
    rw [List.map_cons, List.countP_cons, List.countP_cons,
      h x (List.mem_cons_self x xs), ih (fun y hy => h y (List.mem_cons_of_mem x hy))]

theorem resolveEntry_eq_of_truthy {ms : List PhysMonitor} {ss : Snapshot}
    {lm : LogicalMonitor} (h : resolvesTruthy ms ss lm = true) :
    resolveEntry ms ss lm = some (resolvedOf ms ss lm) := by
  cases hh : lm.monitors.head? with
  | none => rw [resolvesTruthy] at h; simp [hh] at h
  | some a =>
    cases ht : truthyStr (resolveModeId ms ss a.connector) with
    | none => rw [resolvesTruthy] at h; simp [hh, ht] at h
    | some mid => simp [resolveEntry, resolvedOf, hh, ht]

theorem isPrim_resolvedOf (ms : List PhysMonitor) (ss : Snapshot) (lm : LogicalMonitor) :
    isPrim (resolvedOf ms ss lm) = isPrim lm := by
  cases hh : lm.monitors.head? with
  | none => simp [resolvedOf, hh]
  | some a =>
    cases ht : truthyStr (resolveModeId ms ss a.connector) with
    | none => simp [resolvedOf, hh, ht]
    | some mid => simp [resolvedOf, hh, ht, isPrim]

theorem countP_normalizePositions (l : List LogicalMonitor) :
    (normalizePositions l).countP isPrim = l.countP isPrim := by
  cases l with
  | nil => rfl
  | cons lm rest =>
    rw [normalizePositions]
    split
    · rfl
    · exact countP_map_congr _ isPrim isPrim _ (fun x _ => rfl)

theorem finalizeLayout_allResolve {ms : List PhysMonitor} {ss : Snapshot}
    {lms : List LogicalMonitor} (hall : allResolve ms ss lms = true) (hne : lms ≠ []) :
    finalizeLayout ms ss lms = some (normalizePositions (lms.map (resolvedOf ms ss))) := by
  have hmap : lms.filterMap (resolveEntry ms ss) = lms.map (resolvedOf ms ss) :=
    filterMap_eq_map_of _ _ _
      (fun x hx => resolveEntry_eq_of_truthy ((List.all_eq_true.1 hall) x hx))
  rw [finalizeLayout, hmap, if_neg]
  simp [List.isEmpty_iff, hne]

theorem length_ensurePrimary (l : List LogicalMonitor) :
    (ensurePrimary l).length = l.length := by
  cases l with
  | nil => rfl
  | cons lm rest =>
    rw [ensurePrimary]
    split
    · rfl
    · rw [List.length_cons, List.length_cons]

theorem ensurePrimary_eq_of_any {l : List LogicalMonitor}
    (h : l.any (fun lm => lm.isPrimary) = true) : ensurePrimary l = l := by
  cases l with
  | nil => rfl
  | cons lm rest => rw [ensurePrimary, if_pos h]

theorem countP_ensurePrimary {l : List LogicalMonitor} (hne : l ≠ [])
    (hle : l.countP isPrim ≤ 1) : (ensurePrimary l).countP isPrim = 1 := by
  cases l with
  | nil => exact absurd rfl hne
  | cons lm rest =>
    rw [ensurePrimary]
    split
    · rename_i hany
      have hpos : 0 < (lm :: rest).countP isPrim := by
        obtain ⟨a, ha, hpa⟩ := List.any_eq_true.1 hany
        exact List.countP_pos_iff.2 ⟨a, ha, hpa⟩
      omega
    · rename_i hany
      have hrest : rest.countP isPrim = 0 := by
        rw [List.countP_eq_zero]
        intro a ha
        by_contra hpa
        exact hany (List.any_eq_true.2
          ⟨a, List.mem_cons_of_mem lm ha, by simpa [isPrim] using hpa⟩)
      rw [List.countP_cons, hrest]
      norm_num [isPrim]

theorem fixPrimaryFlags_length (l : List LogicalMonitor) :
    (fixPrimaryFlags l).length = l.length :=
  (fixPrimaryFlags_frame_all l).length_eq.symm

theorem countP_ensure_fix {l : List LogicalMonitor} (hne : l ≠ []) :
    (ensurePrimary (fixPrimaryFlags l)).countP isPrim = 1 := by
  refine countP_ensurePrimary ?_ (countP_fixPrimaryFlags_le_one l)
  intro hcon
  have := fixPrimaryFlags_length l
  rw [hcon] at this
  exact hne (List.length_eq_zero.1 this.symm)

theorem countP_filterMap_le {α : Type} (f : α → Option LogicalMonitor) (q : α → Bool)
    (l : List α) (h : ∀ x y, f x = some y → isPrim y = q x) :
    (l.filterMap f).countP isPrim ≤ l.countP q := by
  induction l with
  | nil => exact le_refl 0
  | cons x xs ih =>
    cases hf : f x with
    | none =>
      rw [List.filterMap_cons_none hf, List.countP_cons]
      omega
    | some y =>
      rw [List.filterMap_cons_some hf, List.countP_cons, List.countP_cons, h x y hf]
      omega

theorem countP_disSurvivors_le (lms : List LogicalMonitor) (sel : String) :
    (disSurvivors lms sel).countP isPrim ≤ lms.countP isPrim := by
  refine countP_filterMap_le _ _ _ ?_
  intro x y hf
  split at hf
  · exact absurd hf (by simp)
  · rw [Option.some_inj] at hf
    subst hf
    rfl

theorem countP_originIfSingle (l : List LogicalMonitor) :
    (originIfSingle l).countP isPrim = l.countP isPrim := by
  match l with
  | [] => rfl
  | [lm] => rfl
  | lm :: l2 :: ls => rfl

theorem originIfSingle_ne_nil {l : List LogicalMonitor} (h : l ≠ []) :
    originIfSingle l ≠ [] := by
  match l with
  | [] => exact absurd rfl h
  | [lm] => simp [originIfSingle]
  | lm :: l2 :: ls => simp [originIfSingle]

theorem countP_planDisable {lms : List LogicalMonitor} {sel : String}
    {fl : List LogicalMonitor} (h : planDisable lms sel = some fl)
    (hle : lms.countP isPrim ≤ 1) : fl.countP isPrim = 1 := by
  rw [planDisable] at h
  split at h
  · exact absurd h (by simp)
  · rename_i hne
    rw [Option.some_inj] at h
    subst h
    refine countP_ensurePrimary
      (originIfSingle_ne_nil (by simpa [List.isEmpty_iff] using hne)) ?_
    rw [countP_originIfSingle]
    exact le_trans (countP_disSurvivors_le lms sel) hle

theorem toggleCandidate_countP {st : ToggleState} {xml : Option XmlConf}
    {cand : List LogicalMonitor} (h : toggleCandidate st xml = .ok cand)
    (hlms : st.logicalMonitors.countP isPrim ≤ 1) (hne : cand ≠ []) :
    cand.countP isPrim = 1 := by
  rw [toggleCandidate] at h
  split_ifs at h with hact hsnap
  · cases hpd : planDisable st.logicalMonitors st.selected with
    | none => rw [hpd] at h; exact absurd h (by simp)
    | some fl =>
      rw [hpd] at h
      simp only [Except.ok.injEq] at h
      subst h
      exact countP_planDisable hpd hlms
  · simp only [Except.ok.injEq] at h
    subst h
    refine countP_ensure_fix ?_
    intro hcon
    rw [hcon] at hne
    exact hne rfl
  · cases hpf : planEnableFallback st.monitors st.snapshot st.logicalMonitors st.selected xml with
    | error e => rw [hpf] at h; exact absurd h (by simp)
    | ok fl =>
      rw [hpf] at h
      simp only [Except.ok.injEq] at h
      subst h
      refine countP_ensure_fix ?_
      intro hcon
      rw [hcon] at hne
      exact hne rfl

/-! ### C2: the single-primary invariant of submitted layouts -/

/-- The entry `_makePrimary` builds for a surviving logical monitor
(identity on non-surviving ones, never hit under `allResolve`). -/
def mpResolvedOf (ms : List PhysMonitor) (ss : Snapshot) (tgt : String)
    (lm : LogicalMonitor) : LogicalMonitor :=
  match lm.monitors.head? with
  | none => lm
  | some a =>
    match truthyStr (resolveModeId ms ss a.connector) with
    | none => lm
    | some mid =>
      ⟨lm.x, lm.y, lm.scale, lm.transform,
        lm.monitors.any (fun m => m.connector == tgt), [⟨a.connector, mid⟩], []⟩

theorem mpEntry_eq (ms : List PhysMonitor) (ss : Snapshot) (tgt : String)
    (lm : LogicalMonitor) :
    mpEntry ms ss tgt lm =
      if resolvesTruthy ms ss lm = true then some (mpResolvedOf ms ss tgt lm)
      else none := by
  cases hh : lm.monitors.head? with
  | none => simp [mpEntry, resolvesTruthy, hh]
  | some a =>
    cases ht : truthyStr (resolveModeId ms ss a.connector) with
    | none => simp [mpEntry, resolvesTruthy, mpResolvedOf, hh, ht]
    | some mid => simp [mpEntry, resolvesTruthy, mpResolvedOf, hh, ht]

theorem isPrim_mpResolvedOf {ms : List PhysMonitor} {ss : Snapshot} {tgt : String}
    {lm : LogicalMonitor} (h : resolvesTruthy ms ss lm = true) :
    isPrim (mpResolvedOf ms ss tgt lm) = lm.monitors.any (fun m => m.connector == tgt) := by
  cases hh : lm.monitors.head? with
  | none => rw [resolvesTruthy] at h; simp [hh] at h
  | some a =>
    cases ht : truthyStr (resolveModeId ms ss a.connector) with
    | none => rw [resolvesTruthy] at h; simp [hh, ht] at h
    | some mid => simp [mpResolvedOf, hh, ht, isPrim]

/-- The primary count of `_makePrimary`'s rebuilt list equals the number
of *surviving* logical monitors containing the target — no repair is
applied. -/
theorem countP_planMakePrimary (ms : List PhysMonitor) (ss : Snapshot)
    (lms : List LogicalMonitor) (tgt : String) :
    (planMakePrimary ms ss lms tgt).countP isPrim =
      lms.countP (fun lm => resolvesTruthy ms ss lm &&
        lm.monitors.any (fun m => m.connector == tgt)) := by
  rw [planMakePrimary]
  induction lms with
  | nil => rfl
  | cons lm rest ih =>
    by_cases hrt : resolvesTruthy ms ss lm = true
    · rw [List.filterMap_cons_some (by rw [mpEntry_eq, if_pos hrt]),
        List.countP_cons, List.countP_cons, ih, isPrim_mpResolvedOf hrt, hrt]
      simp
    · have hrt' : resolvesTruthy ms ss lm = false := by
        revert hrt
        cases resolvesTruthy ms ss lm <;> simp
      rw [List.filterMap_cons_none (by rw [mpEntry_eq, hrt']; simp),
        List.countP_cons, ih, hrt']
      simp

theorem ingest_logicalMonitors (st : ToggleState) (f : FetchPayload) :
    (ingest st f).logicalMonitors = fixPrimaryFlags f.logicalMonitors := rfl

/-- C2 (amended): after the refresh that starts each flow, a layout
submitted by the toggle's disable or enable branch contains exactly one
`isPrimary = true` entry, provided every candidate monitor survives the
final mode-resolution pass (the counterexample's second scenario shows a
dropped candidate removing the only primary); extra primaries in the
fetched input are already repaired by `fixPrimaryFlags` at fetch time,
which keeps the first and forces the extras false.  The make-primary
flow instead marks exactly the *surviving* monitors containing the
target, with no repair: its submitted layout has exactly one primary
precisely when the target appears in exactly one surviving monitor
(stated below as a count over monitors that pass `resolvesTruthy`). -/
theorem claim_single_primary_submitted (st : ToggleState) (f : FetchPayload)
    (xml : Option XmlConf) (tgt : String) (cand layout layout2 : List LogicalMonitor) :
    (toggleCandidate (ingest st f) xml = .ok cand →
      allResolve (ingest st f).monitors (ingest st f).snapshot cand = true →
      toggleOp (ingest st f) xml = .submit layout →
      layout.countP isPrim = 1) ∧
    ((ingest st f).logicalMonitors.countP
        (fun lm => resolvesTruthy (ingest st f).monitors (ingest st f).snapshot lm &&
          lm.monitors.any (fun a => a.connector == tgt)) = 1 →
      makePrimaryFlow st f tgt = some layout2 →
      layout2.countP isPrim = 1) := by
  constructor
  · intro hcand hall hsub
    simp only [toggleOp, hcand] at hsub
    cases hfin : finalizeLayout (ingest st f).monitors (ingest st f).snapshot cand with
    | none => rw [hfin] at hsub; exact absurd hsub (by simp)
    | some l =>
      rw [hfin] at hsub
      simp only [ToggleOutcome.submit.injEq] at hsub
      subst hsub
      have hne : cand ≠ [] := by
        intro hc
        subst hc
        rw [finalizeLayout] at hfin
        simp at hfin
      rw [finalizeLayout_allResolve hall hne, Option.some_inj] at hfin
      rw [← hfin, countP_normalizePositions,
        countP_map_congr (resolvedOf (ingest st f).monitors (ingest st f).snapshot)
          isPrim isPrim cand
          (fun x _ => isPrim_resolvedOf (ingest st f).monitors (ingest st f).snapshot x)]
      exact toggleCandidate_countP hcand
        (by rw [ingest_logicalMonitors]; exact countP_fixPrimaryFlags_le_one _) hne
  · intro hcnt hmp
    rw [makePrimaryFlow, makePrimaryOp] at hmp
    split at hmp
    · exact absurd hmp (by simp)
    · rw [Option.some_inj] at hmp
      subst hmp
      rw [countP_normalizePositions, countP_planMakePrimary]
      exact hcnt

/-- Two-monitor fixture: physical monitor `"A"`. -/
def mApx : PhysMonitor := ⟨"A", "V", "P", [⟨"m1", 1920, 1080, true, false⟩]⟩

/-- Two-monitor fixture: physical monitor `"B"`. -/
def mBpx : PhysMonitor := ⟨"B", "V", "P", [⟨"m2", 1920, 1080, true, false⟩]⟩

/-- Two-monitor fixture: logical monitor for `"A"` at the origin. -/
def lmApx : LogicalMonitor := ⟨0, 0, 1, 0, true, [⟨"A", "m1"⟩], []⟩

/-- Two-monitor fixture: logical monitor for `"B"` to the right. -/
def lmBpx : LogicalMonitor := ⟨1920, 0, 1, 0, false, [⟨"B", "m2"⟩], []⟩

/-- Two-monitor fixture: both monitors active, `"B"` selected. -/
def stPx : ToggleState := ⟨[mApx, mBpx], [lmApx, lmBpx], [], "B"⟩

/-- Two-monitor fixture: the matching fetch payload. -/
def fPx : FetchPayload := ⟨[mApx, mBpx], [lmApx, lmBpx]⟩

theorem claim_single_primary_submitted_witness :
    (toggleOp (ingest stPx fPx) none = .submit [lmApx] ∧
      ([lmApx] : List LogicalMonitor).countP isPrim = 1) ∧
    (makePrimaryFlow stPx fPx "A" = some [lmApx, lmBpx] ∧
      ([lmApx, lmBpx] : List LogicalMonitor).countP isPrim = 1) :=
  ⟨⟨rfl, (claim_single_primary_submitted stPx fPx none "A" [lmApx] [lmApx]
      [lmApx, lmBpx]).1 rfl rfl rfl⟩,
   ⟨rfl, (claim_single_primary_submitted stPx fPx none "A" [lmApx] [lmApx]
      [lmApx, lmBpx]).2 rfl rfl⟩⟩

/-- C2 counterexample fixture: pre-fetch state for the disable-branch
scenario (selected connector `"S"`). -/
def stDropC : ToggleState := ⟨[⟨"A", "V", "P", [⟨"m1", 1920, 1080, true, false⟩]⟩], [], [], "S"⟩

/-- C2 counterexample fixture: the fetched state — the primary logical
monitor's connector `"X"` is not among the physical monitors, and the
selected `"S"` shares a logical monitor with `"A"`. -/
def fDropC : FetchPayload :=
  ⟨[⟨"A", "V", "P", [⟨"m1", 1920, 1080, true, false⟩]⟩],
   [⟨0, 0, 1, 0, true, [⟨"X", "mx"⟩], []⟩,
    ⟨1920, 0, 1, 0, false, [⟨"A", "m1"⟩, ⟨"S", "ms"⟩], []⟩]⟩

/-- C2 counterexample to the claim as stated, in two scenarios.
(1) The make-primary flow with a target connector (`"Z"`) absent from
every logical monitor submits a layout with *zero* primary entries —
nothing in `_makePrimary` enforces the single-primary invariant.
(2) The toggle's *disable* branch submits a layout with zero primary
entries when the final mode-resolution pass drops the only primary
monitor (its connector `"X"` resolves no mode): disabling `"S"` submits
just the non-primary `"A"` monitor. -/
theorem claim_single_primary_submitted_cex :
    (makePrimaryFlow stPx fPx "Z" =
      some [⟨0, 0, 1, 0, false, [⟨"A", "m1"⟩], []⟩,
            ⟨1920, 0, 1, 0, false, [⟨"B", "m2"⟩], []⟩] ∧
    ([⟨0, 0, 1, 0, false, [⟨"A", "m1"⟩], []⟩,
      ⟨1920, 0, 1, 0, false, [⟨"B", "m2"⟩], []⟩] :
        List LogicalMonitor).countP isPrim = 0) ∧
    (toggleFlow stDropC fDropC none =
      .submit [⟨0, 0, 1, 0, false, [⟨"A", "m1"⟩], []⟩] ∧
    ([⟨0, 0, 1, 0, false, [⟨"A", "m1"⟩], []⟩] :
        List LogicalMonitor).countP isPrim = 0) :=
  ⟨⟨rfl, rfl⟩, ⟨rfl, rfl⟩⟩

/-! ### C1: disable-then-enable round trip -/

/-- A snapshot entry whose connector is still physically present and
resolves a truthy mode id — the entries the snapshot-restore branch
keeps. -/
def snapSurvives (ms : List PhysMonitor) (ss : Snapshot) (cs : String × SnapEntry) : Bool :=
  (truthyStr (resolveModeId ms ss cs.1)).isSome && ms.any (fun p => p.connector == cs.1)

/-- The logical monitor the snapshot-restore branch builds for one
snapshot entry (with an empty assignment list in the never-hit
non-resolving case). -/
def snapEntryToLm (ms : List PhysMonitor) (ss : Snapshot) (cs : String × SnapEntry) :
    LogicalMonitor :=
  match truthyStr (resolveModeId ms ss cs.1) with
  | none => ⟨cs.2.x, cs.2.y, cs.2.scale, cs.2.transform, cs.2.isPrimary, [], []⟩
  | some mid => ⟨cs.2.x, cs.2.y, cs.2.scale, cs.2.transform, cs.2.isPrimary, [⟨cs.1, mid⟩], []⟩

theorem planEnableSnapshot_allSurvive {ms : List PhysMonitor} {ss : Snapshot}
    (hall : ∀ cs ∈ ss, snapSurvives ms ss cs = true) :
    planEnableSnapshot ms ss = ss.map (snapEntryToLm ms ss) := by
  rw [planEnableSnapshot]
  refine filterMap_eq_map_of _ _ _ ?_
  intro cs hcs
  have h := hall cs hcs
  rw [snapSurvives, Bool.and_eq_true] at h
  cases ht : truthyStr (resolveModeId ms ss cs.1) with
  | none => rw [ht] at h; exact absurd h.1 (by simp)
  | some mid => simp [snapEntryToLm, ht, h.2]

theorem snapEntryToLm_fields (ms : List PhysMonitor) (ss : Snapshot)
    (cs : String × SnapEntry) :
    (snapEntryToLm ms ss cs).x = cs.2.x ∧ (snapEntryToLm ms ss cs).y = cs.2.y ∧
    (snapEntryToLm ms ss cs).scale = cs.2.scale ∧
    (snapEntryToLm ms ss cs).transform = cs.2.transform ∧
    (snapEntryToLm ms ss cs).isPrimary = cs.2.isPrimary := by
  cases ht : truthyStr (resolveModeId ms ss cs.1) <;> simp [snapEntryToLm, ht]

theorem snapEntryToLm_monitors {ms : List PhysMonitor} {ss : Snapshot}
    {cs : String × SnapEntry} (h : snapSurvives ms ss cs = true) :
    ∃ mid, (snapEntryToLm ms ss cs).monitors = [⟨cs.1, mid⟩] := by
  rw [snapSurvives, Bool.and_eq_true] at h
  cases ht : truthyStr (resolveModeId ms ss cs.1) with
  | none => rw [ht] at h; exact absurd h.1 (by simp)
  | some mid => exact ⟨mid, by simp [snapEntryToLm, ht]⟩

theorem resolvesTruthy_snapEntryToLm {ms : List PhysMonitor} {ss : Snapshot}
    {cs : String × SnapEntry} (h : snapSurvives ms ss cs = true) :
    resolvesTruthy ms ss (snapEntryToLm ms ss cs) = true := by
  rw [snapSurvives, Bool.and_eq_true] at h
  cases ht : truthyStr (resolveModeId ms ss cs.1) with
  | none => rw [ht] at h; exact absurd h.1 (by simp)
  | some mid => simp [snapEntryToLm, ht, resolvesTruthy]

theorem resolvedOf_snapEntryToLm {ms : List PhysMonitor} {ss : Snapshot}
    {cs : String × SnapEntry} (h : snapSurvives ms ss cs = true) :
    resolvedOf ms ss (snapEntryToLm ms ss cs) = snapEntryToLm ms ss cs := by
  rw [snapSurvives, Bool.and_eq_true] at h
  cases ht : truthyStr (resolveModeId ms ss cs.1) with
  | none => rw [ht] at h; exact absurd h.1 (by simp)
  | some mid => simp [snapEntryToLm, ht, resolvedOf]

theorem any_of_countP_one {l : List LogicalMonitor} (h : l.countP isPrim = 1) :
    l.any (fun lm => lm.isPrimary) = true := by
  obtain ⟨a, ha, hp⟩ := List.countP_pos_iff.1 (by omega : 0 < l.countP isPrim)
  exact List.any_eq_true.2 ⟨a, ha, hp⟩

theorem normalizePositions_eq_self {l : List LogicalMonitor}
    (hx : ∀ lm ∈ l, 0 ≤ lm.x) (hy : ∀ lm ∈ l, 0 ≤ lm.y)
    (hex : ∃ lm ∈ l, lm.x = 0) (hey : ∃ lm ∈ l, lm.y = 0) :
    normalizePositions l = l := by
  cases l with
  | nil => rfl
  | cons lm rest =>
    rw [normalizePositions, if_pos]
    constructor
    · refine foldl_min_eq_zero (hx lm (List.mem_cons_self lm rest)) ?_ ?_
      · intro v hv
        obtain ⟨l0, hl0, rfl⟩ := List.mem_map.1 hv
        exact hx l0 (List.mem_cons_of_mem lm hl0)
      · obtain ⟨l0, hl0, hl0x⟩ := hex
        rcases List.mem_cons.1 hl0 with rfl | hl0
        · exact Or.inl hl0x
        · exact Or.inr ⟨l0.x, List.mem_map_of_mem _ hl0, hl0x⟩
    · refine foldl_min_eq_zero (hy lm (List.mem_cons_self lm rest)) ?_ ?_
      · intro v hv
        obtain ⟨l0, hl0, rfl⟩ := List.mem_map.1 hv
        exact hy l0 (List.mem_cons_of_mem lm hl0)
      · obtain ⟨l0, hl0, hl0y⟩ := hey
        rcases List.mem_cons.1 hl0 with rfl | hl0
        · exact Or.inl hl0y
        · exact Or.inr ⟨l0.y, List.mem_map_of_mem _ hl0, hl0y⟩

/-- C1 (amended): a disable of `A` followed by an enable of `A` restores
`A`'s exact snapshot `(x, y, scale, transform, isPrimary)` provided,
beyond the claim's own conditions (full-coverage two-connector snapshot,
`A`'s recorded mode id still offered), that the snapshot is preserved
across the interval (it is, under non-covering refetches), and that
(i) every snapshot connector is still present with a resolvable mode,
(ii) the snapshot records exactly one primary, and (iii) the snapshot's
minimum `x` and `y` are `0` — each proviso forced by one scenario of the
counterexample. -/
theorem claim_roundtrip_restore (st1 st2 : ToggleState) (xml1 xml2 : Option XmlConf)
    (A : String) (sA : SnapEntry) (L1 : List LogicalMonitor)
    (hsel1 : st1.selected = A)
    (hact1 : isActive st1.logicalMonitors A = true)
    (hdis : toggleOp st1 xml1 = .submit L1)
    (hkeep : st2.snapshot = st1.snapshot)
    (hsel2 : st2.selected = A)
    (hinact : isActive st2.logicalMonitors A = false)
    (hlen : 2 ≤ st1.snapshot.length)
    (hA : snapLookup st1.snapshot A = some sA)
    (hmode : ∃ idA, sA.modeId = some idA ∧
      ∃ phys, findPhys st2.monitors A = some phys ∧
        phys.modes.any (fun m => m.id == idA) = true)
    (hall : ∀ cs ∈ st1.snapshot, snapSurvives st2.monitors st1.snapshot cs = true)
    (hprim : st1.snapshot.countP (fun cs => cs.2.isPrimary) = 1)
    (hminx : ∀ cs ∈ st1.snapshot, 0 ≤ cs.2.x) (hminy : ∀ cs ∈ st1.snapshot, 0 ≤ cs.2.y)
    (hex : ∃ cs ∈ st1.snapshot, cs.2.x = 0) (hey : ∃ cs ∈ st1.snapshot, cs.2.y = 0) :
    ∃ L2, toggleOp st2 xml2 = .submit L2 ∧
      ∃ lm ∈ L2, (∃ mid, lm.monitors = [(⟨A, mid⟩ : Assignment)]) ∧
        lm.x = sA.x ∧ lm.y = sA.y ∧ lm.scale = sA.scale ∧
        lm.transform = sA.transform ∧ lm.isPrimary = sA.isPrimary := by
  have hfind : ∃ pA, st1.snapshot.find? (fun p => p.1 == A) = some pA ∧ pA.2 = sA := by
    rw [snapLookup] at hA
    cases hf : st1.snapshot.find? (fun p => p.1 == A) with
    | none => rw [hf] at hA; exact absurd hA (by simp)
    | some pA => rw [hf] at hA; exact ⟨pA, rfl, by simpa using hA⟩
  obtain ⟨pA, hfA, hpA2⟩ := hfind
  have hpA1 : pA.1 = A := by
    have := List.find?_some hfA
    simpa using this
  have hpAmem : pA ∈ st1.snapshot := List.mem_of_find?_eq_some hfA
  have hsnapuse : hasUsableSnapshot st2.snapshot st2.selected = true := by
    rw [hasUsableSnapshot, hkeep, hsel2, Bool.and_eq_true]
    exact ⟨by rw [hfA]; rfl, by simpa using hlen⟩
  have hcand : toggleCandidate st2 xml2 =
      .ok (ensurePrimary (fixPrimaryFlags (planEnableSnapshot st2.monitors st2.snapshot))) := by
    rw [toggleCandidate, if_neg (by rw [hsel2, hinact]; simp), if_pos hsnapuse]
  have hmap : planEnableSnapshot st2.monitors st2.snapshot =
      st1.snapshot.map (snapEntryToLm st2.monitors st1.snapshot) := by
    rw [hkeep]
    exact planEnableSnapshot_allSurvive hall
  have hcount : (st1.snapshot.map (snapEntryToLm st2.monitors st1.snapshot)).countP
      isPrim = 1 := by
    rw [countP_map_congr (snapEntryToLm st2.monitors st1.snapshot) isPrim
      (fun cs => cs.2.isPrimary) st1.snapshot
      (fun cs _ => by
        have h := snapEntryToLm_fields st2.monitors st1.snapshot cs
        simpa [isPrim] using h.2.2.2.2)]
    exact hprim
  have hfixno : fixPrimaryFlags (st1.snapshot.map (snapEntryToLm st2.monitors st1.snapshot)) =
      st1.snapshot.map (snapEntryToLm st2.monitors st1.snapshot) :=
    fixPrimaryFlags_eq_of_le_one (le_of_eq hcount)
  have hensno : ensurePrimary (st1.snapshot.map (snapEntryToLm st2.monitors st1.snapshot)) =
      st1.snapshot.map (snapEntryToLm st2.monitors st1.snapshot) :=
    ensurePrimary_eq_of_any (any_of_countP_one hcount)
  have hcand2 : toggleCandidate st2 xml2 =
      .ok (st1.snapshot.map (snapEntryToLm st2.monitors st1.snapshot)) := by
    rw [hcand, hmap, hfixno, hensno]
  have hmem_shape : ∀ lm ∈ st1.snapshot.map (snapEntryToLm st2.monitors st1.snapshot),
      ∃ cs ∈ st1.snapshot, lm = snapEntryToLm st2.monitors st1.snapshot cs := by
    intro lm hlm
    obtain ⟨cs, hcs, rfl⟩ := List.mem_map.1 hlm
    exact ⟨cs, hcs, rfl⟩
  have hallres : allResolve st2.monitors st2.snapshot
      (st1.snapshot.map (snapEntryToLm st2.monitors st1.snapshot)) = true := by
    rw [allResolve, List.all_eq_true]
    intro lm hlm
    obtain ⟨cs, hcs, rfl⟩ := hmem_shape lm hlm
    rw [hkeep]
    exact resolvesTruthy_snapEntryToLm (hall cs hcs)
  have hne : st1.snapshot.map (snapEntryToLm st2.monitors st1.snapshot) ≠ [] := by
    intro hcon
    have h0 := congrArg List.length hcon
    rw [List.length_map] at h0
    simp only [List.length_nil] at h0
    omega
  have hid : (st1.snapshot.map (snapEntryToLm st2.monitors st1.snapshot)).map
      (resolvedOf st2.monitors st2.snapshot) =
      st1.snapshot.map (snapEntryToLm st2.monitors st1.snapshot) := by
    rw [List.map_map]
    refine List.map_congr_left ?_
    intro cs hcs
    simp only [Function.comp]
    rw [hkeep]
    exact resolvedOf_snapEntryToLm (hall cs hcs)
  have hnorm : normalizePositions (st1.snapshot.map (snapEntryToLm st2.monitors st1.snapshot)) =
      st1.snapshot.map (snapEntryToLm st2.monitors st1.snapshot) := by
    refine normalizePositions_eq_self ?_ ?_ ?_ ?_
    · intro lm hlm
      obtain ⟨cs, hcs, rfl⟩ := hmem_shape lm hlm
      rw [(snapEntryToLm_fields st2.monitors st1.snapshot cs).1]
      exact hminx cs hcs
    · intro lm hlm
      obtain ⟨cs, hcs, rfl⟩ := hmem_shape lm hlm
      rw [(snapEntryToLm_fields st2.monitors st1.snapshot cs).2.1]
      exact hminy cs hcs
    · obtain ⟨cs, hcs, hcsx⟩ := hex
      exact ⟨snapEntryToLm st2.monitors st1.snapshot cs, List.mem_map_of_mem _ hcs,
        by rw [(snapEntryToLm_fields st2.monitors st1.snapshot cs).1]; exact hcsx⟩
    · obtain ⟨cs, hcs, hcsy⟩ := hey
      exact ⟨snapEntryToLm st2.monitors st1.snapshot cs, List.mem_map_of_mem _ hcs,
        by rw [(snapEntryToLm_fields st2.monitors st1.snapshot cs).2.1]; exact hcsy⟩
  have hfin : finalizeLayout st2.monitors st2.snapshot
      (st1.snapshot.map (snapEntryToLm st2.monitors st1.snapshot)) =
      some (st1.snapshot.map (snapEntryToLm st2.monitors st1.snapshot)) := by
    rw [finalizeLayout_allResolve hallres hne, hid, hnorm]
  refine ⟨st1.snapshot.map (snapEntryToLm st2.monitors st1.snapshot), ?_, ?_⟩
  · simp only [toggleOp, hcand2, hfin]
  · refine ⟨snapEntryToLm st2.monitors st1.snapshot pA, List.mem_map_of_mem _ hpAmem, ?_⟩
    obtain ⟨mid, hmon⟩ := snapEntryToLm_monitors (hall pA hpAmem)
    have hf := snapEntryToLm_fields st2.monitors st1.snapshot pA
    exact ⟨⟨mid, by rw [hmon, hpA1]⟩,
      by rw [hf.1, hpA2], by rw [hf.2.1, hpA2], by rw [hf.2.2.1, hpA2],
      by rw [hf.2.2.2.1, hpA2], by rw [hf.2.2.2.2, hpA2]⟩

/-- Round-trip fixture: the full-coverage snapshot over `{A, B}`. -/
def ssRt : Snapshot :=
  [("A", ⟨0, 0, 1, 0, true, some "m1"⟩), ("B", ⟨1920, 0, 1, 0, false, some "m2"⟩)]

/-- Round-trip fixture: both monitors active, `"A"` selected (disable). -/
def stRt1 : ToggleState := ⟨[mApx, mBpx], [lmApx, lmBpx], ssRt, "A"⟩

/-- Round-trip fixture: state after the disable of `"A"` (the layout the
disable submitted, refetched, snapshot preserved). -/
def stRt2 : ToggleState :=
  ⟨[mApx, mBpx], [⟨0, 0, 1, 0, true, [⟨"B", "m2"⟩], []⟩], ssRt, "A"⟩

theorem claim_roundtrip_restore_witness :
    ∃ L2, toggleOp stRt2 none = .submit L2 ∧
      ∃ lm ∈ L2, (∃ mid, lm.monitors = [(⟨"A", mid⟩ : Assignment)]) ∧
        lm.x = (0 : Int) ∧ lm.y = (0 : Int) ∧ lm.scale = (1 : Rat) ∧
        lm.transform = (0 : Int) ∧ lm.isPrimary = true :=
  claim_roundtrip_restore stRt1 stRt2 none none "A" ⟨0, 0, 1, 0, true, some "m1"⟩
    [⟨0, 0, 1, 0, true, [⟨"B", "m2"⟩], []⟩]
    rfl (by decide) rfl rfl rfl (by decide) (by decide) rfl
    ⟨"m1", rfl, mApx, rfl, by decide⟩
    (by decide) rfl (by decide) (by decide) (by decide) (by decide)

/-- C1 counterexample inputs: the same two monitors, but the recorded
snapshot sits at `x = 100` (its minimum `x` is not `0`). -/
def ssRtC : Snapshot :=
  [("A", ⟨100, 0, 1, 0, true, some "m1"⟩), ("B", ⟨100, 100, 1, 0, false, some "m2"⟩)]

/-- C1 counterexample: state at the disable of `"A"`. -/
def stRtC1 : ToggleState :=
  ⟨[mApx, mBpx],
   [⟨100, 0, 1, 0, true, [⟨"A", "m1"⟩], []⟩, ⟨100, 100, 1, 0, false, [⟨"B", "m2"⟩], []⟩],
   ssRtC, "A"⟩

/-- C1 counterexample: state at the enable of `"A"`, after the disable's
layout was refetched; the snapshot is unchanged. -/
def stRtC2 : ToggleState :=
  ⟨[mApx, mBpx], [⟨0, 0, 1, 0, true, [⟨"B", "m2"⟩], []⟩], ssRtC, "A"⟩

/-- C1 counterexample fixture (b): a snapshot recording *no* primary
entry; `ensurePrimary` will promote the first restored monitor. -/
def ssRtP : Snapshot :=
  [("A", ⟨0, 0, 1, 0, false, some "m1"⟩), ("B", ⟨1920, 0, 1, 0, false, some "m2"⟩)]

/-- C1 counterexample fixture (b): state at the disable of `"A"`. -/
def stRtP1 : ToggleState := ⟨[mApx, mBpx], [lmApx, lmBpx], ssRtP, "A"⟩

/-- C1 counterexample fixture (b): state at the enable of `"A"`. -/
def stRtP2 : ToggleState :=
  ⟨[mApx, mBpx], [⟨0, 0, 1, 0, true, [⟨"B", "m2"⟩], []⟩], ssRtP, "A"⟩

/-- C1 counterexample fixture (c): a min-zero snapshot with exactly one
primary (on `B`); `B` will be unplugged before the enable. -/
def ssRtD : Snapshot :=
  [("A", ⟨1920, 0, 1, 0, false, some "m1"⟩), ("B", ⟨0, 0, 1, 0, true, some "m2"⟩)]

/-- C1 counterexample fixture (c): state at the disable of `"A"`. -/
def stRtD1 : ToggleState :=
  ⟨[mApx, mBpx],
   [⟨1920, 0, 1, 0, false, [⟨"A", "m1"⟩], []⟩, ⟨0, 0, 1, 0, true, [⟨"B", "m2"⟩], []⟩],
   ssRtD, "A"⟩

/-- C1 counterexample fixture (c): state at the enable of `"A"` — `B`
is no longer physically present. -/
def stRtD2 : ToggleState := ⟨[mApx], [], ssRtD, "A"⟩

/-- C1 counterexample to the claim as stated, in three scenarios — one
per proviso of the amendment.  (a) The snapshot covers exactly `{A, B}`
and `A`'s recorded mode id `"m1"` is still offered, yet after disabling
`A` and re-enabling it the layout holds `A` at `x = 0`, not the recorded
`x = 100`: finalization translates positions so the minimum becomes `0`.
(b) A snapshot recording no primary: the re-enable promotes the first
restored monitor, so `A` comes back with `isPrimary = true` against the
recorded `false`.  (c) A min-zero snapshot with exactly one primary (on
`B`), but `B` unplugged at enable time: `B` is dropped, and `A` comes
back translated to `(0, 0)` and promoted to primary against its recorded
`(1920, 0, false)`. -/
theorem claim_roundtrip_restore_cex :
    (snapLookup ssRtC "A" = some ⟨100, 0, 1, 0, true, some "m1"⟩ ∧
     ssRtC.map Prod.fst = ["A", "B"] ∧
     (mApx.modes.any (fun m => m.id == "m1")) = true ∧
     toggleOp stRtC1 none = .submit [⟨0, 0, 1, 0, true, [⟨"B", "m2"⟩], []⟩] ∧
     stRtC2.snapshot = stRtC1.snapshot ∧
     isActive stRtC2.logicalMonitors "A" = false ∧
     toggleOp stRtC2 none =
       .submit [⟨0, 0, 1, 0, true, [⟨"A", "m1"⟩], []⟩,
                ⟨0, 100, 1, 0, false, [⟨"B", "m2"⟩], []⟩] ∧
     (∀ lm ∈ [(⟨0, 0, 1, 0, true, [⟨"A", "m1"⟩], []⟩ : LogicalMonitor),
              ⟨0, 100, 1, 0, false, [⟨"B", "m2"⟩], []⟩],
       lm.monitors.map (fun a => a.connector) = ["A"] → lm.x = 0) ∧
     (0 : Int) ≠ 100) ∧
    (snapLookup ssRtP "A" = some ⟨0, 0, 1, 0, false, some "m1"⟩ ∧
     ssRtP.countP (fun cs => cs.2.isPrimary) = 0 ∧
     (∀ cs ∈ ssRtP, 0 ≤ cs.2.x ∧ 0 ≤ cs.2.y) ∧
     toggleOp stRtP1 none = .submit [⟨0, 0, 1, 0, true, [⟨"B", "m2"⟩], []⟩] ∧
     toggleOp stRtP2 none =
       .submit [⟨0, 0, 1, 0, true, [⟨"A", "m1"⟩], []⟩,
                ⟨1920, 0, 1, 0, false, [⟨"B", "m2"⟩], []⟩] ∧
     (true : Bool) ≠ false) ∧
    (snapLookup ssRtD "A" = some ⟨1920, 0, 1, 0, false, some "m1"⟩ ∧
     ssRtD.countP (fun cs => cs.2.isPrimary) = 1 ∧
     (∃ cs ∈ ssRtD, cs.2.x = 0) ∧ (∃ cs ∈ ssRtD, cs.2.y = 0) ∧
     toggleOp stRtD1 none = .submit [⟨0, 0, 1, 0, true, [⟨"B", "m2"⟩], []⟩] ∧
     toggleOp stRtD2 none = .submit [⟨0, 0, 1, 0, true, [⟨"A", "m1"⟩], []⟩] ∧
     (0 : Int) ≠ 1920 ∧ (true : Bool) ≠ false) :=
  ⟨⟨rfl, rfl, rfl, rfl, rfl, rfl, rfl, by decide, by decide⟩,
   ⟨rfl, by decide, by decide, rfl, rfl, by decide⟩,
   ⟨rfl, by decide, by decide, by decide, rfl, rfl, by decide, by decide⟩⟩

/-! ### C9: error logging

The logger (logger.js) is modelled by its observable effect: the ordered
list of `(level, event)` entries written, and the `_enabled` gate of
`_emit` (logger.js:88) under which *every* entry — errors included — is
dropped.  The toggle and make-primary flows are instrumented with the
`logError` calls of toggle.js at their source positions; `logInfo`
bookkeeping entries and the purely cosmetic `logStep` payloads are kept
as level/event pairs (UI-only menu-rebuild steps are elided — they never
carry errors). -/

/-- The four console levels `_emit` distinguishes (logger.js:100-105). -/
inductive LogLevel where
  | debug
  | info
  | warn
  | error
deriving DecidableEq, Repr

/-- The logger's module state: the `_enabled` gate, the `_sequence`
counter, and the entries written so far. -/
structure LogState where
  enabled : Bool
  sequence : Nat
  lines : List (LogLevel × String)
deriving DecidableEq, Repr

/-- `_emit` (logger.js:87-106): drops everything when disabled, else
bumps the sequence and appends one structured line. -/
def emit (ls : LogState) (lv : LogLevel) (event : String) : LogState :=
  if ls.enabled then ⟨ls.enabled, ls.sequence + 1, ls.lines ++ [(lv, event)]⟩ else ls

/-- `logDebug` (logger.js:113). -/
def logDebugF (ls : LogState) (event : String) : LogState := emit ls .debug event

/-- `logInfo` (logger.js:117). -/
def logInfoF (ls : LogState) (event : String) : LogState := emit ls .info event

/-- `logError` (logger.js:121). -/
def logErrorF (ls : LogState) (event : String) : LogState := emit ls .error event

/-- `logStep` (logger.js:125): a DEBUG entry with event `"step"`. -/
def logStepF (ls : LogState) : LogState := logDebugF ls "step"

/-- `_disableToggle` logs `toggle.disabled` at ERROR (toggle.js:680). -/
def disableToggleLog (ls : LogState) : LogState := logErrorF ls "toggle.disabled"

/-- `_getMonitorConfig` (toggle.js:215-330): the fetch either fails —
`toggle.config.fetch.error` then `toggle.disabled`, state unchanged, and
the caller continues with the stale state — or succeeds and the state is
ingested (step logs, plus the snapshot-saved step under full
coverage). -/
def getMonitorConfigRun (st : ToggleState) (fr : Except String FetchPayload)
    (ls : LogState) : ToggleState × LogState :=
  match fr with
  | .error _ =>
    (st, disableToggleLog (logErrorF (logStepF ls) "toggle.config.fetch.error"))
  | .ok f =>
    (ingest st f,
      logInfoF
        (if allActive f.monitors (fixPrimaryFlags f.logicalMonitors) then
          logStepF (logStepF (logStepF ls))
        else logStepF (logStepF ls))
        "toggle.config.fetch.done")

/-- The logging of `_toggleMonitor`'s branch and submit section
(toggle.js:386-545): planning aborts log `toggle.action.abort` and
re-fetch; the fallback's dead ends disable the toggle (an ERROR line); a
failed `ApplyMonitorsConfigAsync` logs `toggle.action.apply.error` and
disables the toggle. -/
def toggleBranchLog (st1 : ToggleState) (fr2 : Except String FetchPayload)
    (xml : Option XmlConf) (applyOk : Bool) (ls : LogState) : LogState :=
  match toggleCandidate st1 xml with
  | .error .noMonitorsLeft =>
    (getMonitorConfigRun st1 fr2 (logErrorF ls "toggle.action.abort")).2
  | .error .physicalMonitorNotFound => disableToggleLog (logStepF ls)
  | .error .noModeForMonitor => disableToggleLog (logStepF ls)
  | .error .noValidLayoutAfterResolve => ls
  | .ok cand =>
    match finalizeLayout st1.monitors st1.snapshot cand with
    | none =>
      (getMonitorConfigRun st1 fr2 (logErrorF (logStepF ls) "toggle.action.abort")).2
    | some _ =>
      if applyOk then logInfoF (logStepF (logStepF ls)) "toggle.action.apply.success"
      else disableToggleLog (logErrorF (logStepF (logStepF ls)) "toggle.action.apply.error")

/-- One `_toggleMonitor` run (toggle.js:372-564): start log, initial
fetch, branch/submit, and the `finally` end log. -/
def runToggle (st : ToggleState) (fr1 fr2 : Except String FetchPayload)
    (xml : Option XmlConf) (applyOk : Bool) (ls : LogState) : LogState :=
  logInfoF
    (toggleBranchLog (getMonitorConfigRun st fr1 (logInfoF ls "toggle.action.start")).1
      fr2 xml applyOk
      (logStepF (getMonitorConfigRun st fr1 (logInfoF ls "toggle.action.start")).2))
    "toggle.action.end"

/-- One `_makePrimary` run (toggle.js:627-674): start log, fetch, silent
return on an empty rebuilt list, else submit with
`toggle.make_primary.apply.error` on failure. -/
def runMakePrimary (st : ToggleState) (fr : Except String FetchPayload) (tgt : String)
    (applyOk : Bool) (ls : LogState) : LogState :=
  match makePrimaryOp (getMonitorConfigRun st fr
      (logInfoF ls "toggle.make_primary.start")).1 tgt with
  | none => (getMonitorConfigRun st fr (logInfoF ls "toggle.make_primary.start")).2
  | some _ =>
    if applyOk then
      logInfoF (logStepF (getMonitorConfigRun st fr
        (logInfoF ls "toggle.make_primary.start")).2) "toggle.make_primary.apply.success"
    else
      logErrorF (logStepF (getMonitorConfigRun st fr
        (logInfoF ls "toggle.make_primary.start")).2) "toggle.make_primary.apply.error"

/-- The wrapper `_resetTimeout` installs around timer callbacks
(toggle.js:157-171): a throwing callback logs
`toggle.timeout.callback.error`. -/
def runTimeoutCallback (cb : Except String Bool) (ls : LogState) : LogState :=
  match cb with
  | .ok _ => ls
  | .error _ => logErrorF ls "toggle.timeout.callback.error"

theorem mem_lines_emit {ls : LogState} {p : LogLevel × String} {lv : LogLevel}
    {e : String} (h : p ∈ ls.lines) : p ∈ (emit ls lv e).lines := by
  rw [emit]
  split
  · exact List.mem_append_left _ h
  · exact h

theorem self_mem_emit {ls : LogState} (lv : LogLevel) (e : String)
    (h : ls.enabled = true) : (lv, e) ∈ (emit ls lv e).lines := by
  rw [emit, if_pos h]
  exact List.mem_append_right _ (List.mem_singleton_self _)

theorem enabled_emit (ls : LogState) (lv : LogLevel) (e : String) :
    (emit ls lv e).enabled = ls.enabled := by
  rw [emit]
  split <;> rfl

theorem enabled_getRun (st : ToggleState) (fr : Except String FetchPayload)
    (ls : LogState) : ((getMonitorConfigRun st fr ls).2).enabled = ls.enabled := by
  cases fr with
  | error e =>
    simp only [getMonitorConfigRun, disableToggleLog, logErrorF, logStepF, logDebugF,
      enabled_emit]
  | ok f =>
    simp only [getMonitorConfigRun, logInfoF, logStepF, logDebugF, enabled_emit]
    split <;> simp only [enabled_emit]

theorem mem_getRun {st : ToggleState} {fr : Except String FetchPayload} {ls : LogState}
    {p : LogLevel × String} (h : p ∈ ls.lines) :
    p ∈ ((getMonitorConfigRun st fr ls).2).lines := by
  cases fr with
  | error e =>
    exact mem_lines_emit (mem_lines_emit (mem_lines_emit h))
  | ok f =>
    simp only [getMonitorConfigRun, logInfoF, logStepF, logDebugF]
    split
    · exact mem_lines_emit (mem_lines_emit (mem_lines_emit (mem_lines_emit h)))
    · exact mem_lines_emit (mem_lines_emit (mem_lines_emit h))

theorem err_mem_getRun (st : ToggleState) (e : String) {ls : LogState}
    (h : ls.enabled = true) :
    (LogLevel.error, "toggle.config.fetch.error") ∈
      ((getMonitorConfigRun st (.error e) ls).2).lines := by
  refine mem_lines_emit (self_mem_emit _ _ ?_)
  simp only [logStepF, logDebugF, enabled_emit, h]

theorem getRun_fst (st : ToggleState) (f : FetchPayload) (ls : LogState) :
    (getMonitorConfigRun st (.ok f) ls).1 = ingest st f := rfl

theorem mem_toggleBranchLog {st1 : ToggleState} {fr2 : Except String FetchPayload}
    {xml : Option XmlConf} {applyOk : Bool} {ls : LogState} {p : LogLevel × String}
    (h : p ∈ ls.lines) : p ∈ (toggleBranchLog st1 fr2 xml applyOk ls).lines := by
  rw [toggleBranchLog]
  split
  · exact mem_getRun (mem_lines_emit h)
  · exact mem_lines_emit (mem_lines_emit h)
  · exact mem_lines_emit (mem_lines_emit h)
  · exact h
  · split
    · exact mem_getRun (mem_lines_emit (mem_lines_emit h))
    · split
      · exact mem_lines_emit (mem_lines_emit (mem_lines_emit h))
      · exact mem_lines_emit (mem_lines_emit (mem_lines_emit (mem_lines_emit h)))

theorem planEnableFallback_error_cases {ms : List PhysMonitor} {ss : Snapshot}
    {lms : List LogicalMonitor} {sel : String} {xml : Option XmlConf} {e : AbortReason}
    (h : planEnableFallback ms ss lms sel xml = .error e) :
    e = .physicalMonitorNotFound ∨ e = .noModeForMonitor := by
  rw [planEnableFallback.eq_def] at h
  cases hp : findPhys ms sel with
  | none =>
    rw [hp] at h
    simp only [Except.error.injEq] at h
    exact Or.inl h.symm
  | some phys =>
    rw [hp] at h
    simp only at h
    cases ht : truthyStr (resolveModeId ms ss sel) with
    | none =>
      rw [ht] at h
      simp only [Except.error.injEq] at h
      exact Or.inr h.symm
    | some mid => rw [ht] at h; exact absurd h (by simp)

theorem toggleCandidate_ne_noValid (st : ToggleState) (xml : Option XmlConf) :
    toggleCandidate st xml ≠ .error .noValidLayoutAfterResolve := by
  rw [toggleCandidate]
  split_ifs
  · cases hpd : planDisable st.logicalMonitors st.selected <;> simp
  · simp
  · cases hpf : planEnableFallback st.monitors st.snapshot st.logicalMonitors
      st.selected xml with
    | error e =>
      rcases planEnableFallback_error_cases hpf with rfl | rfl <;> simp
    | ok fl => simp

theorem mem_emit_cases {ls : LogState} {lv : LogLevel} {e : String}
    {p : LogLevel × String} (h : p ∈ (emit ls lv e).lines) :
    p ∈ ls.lines ∨ p = (lv, e) := by
  rw [emit] at h
  split at h
  · rcases List.mem_append.1 h with h | h
    · exact Or.inl h
    · exact Or.inr (by simpa using h)
  · exact Or.inl h

theorem ne_error_of_emit {ls : LogState} {lv : LogLevel} {e : String}
    {p : LogLevel × String} (h : p ∈ (emit ls lv e).lines)
    (hlv : lv ≠ LogLevel.error) (hrec : ∀ q ∈ ls.lines, q.1 ≠ LogLevel.error) :
    p.1 ≠ LogLevel.error := by
  rcases mem_emit_cases h with h | rfl
  · exact hrec p h
  · simpa using hlv

/-- A successful fetch writes only DEBUG/INFO bookkeeping entries. -/
theorem no_error_lines_getRun_ok {st : ToggleState} {f : FetchPayload} {ls : LogState}
    (hbase : ∀ p ∈ ls.lines, p.1 ≠ LogLevel.error) :
    ∀ p ∈ ((getMonitorConfigRun st (.ok f) ls).2).lines, p.1 ≠ LogLevel.error := by
  intro p hp
  simp only [getMonitorConfigRun, logInfoF, logStepF, logDebugF] at hp
  split at hp
  · refine ne_error_of_emit hp (by decide) ?_
    intro q hq
    refine ne_error_of_emit hq (by decide) ?_
    intro q2 hq2
    refine ne_error_of_emit hq2 (by decide) ?_
    intro q3 hq3
    exact ne_error_of_emit hq3 (by decide) hbase
  · refine ne_error_of_emit hp (by decide) ?_
    intro q hq
    refine ne_error_of_emit hq (by decide) ?_
    intro q2 hq2
    exact ne_error_of_emit hq2 (by decide) hbase

/-- C9 (amended): provided the logger is enabled (`debug-logging` true),
the toggle flow's error paths — a fetch failure, a planning abort
(`noMonitorsLeft`, a layout emptied by finalization, the fallback's
missing-monitor and no-mode dead ends), a failed submission — as well as
a failed make-primary submission, a make-primary fetch failure, and a
throwing timer callback each leave at least one structured ERROR entry.
The one exception, proved as the last conjunct: `_makePrimary`'s
planning abort (an empty rebuilt list, toggle.js:645) returns silently —
its run contains no ERROR entry at all. -/
theorem claim_error_logging (st : ToggleState) (f : FetchPayload) (e : String)
    (fr2 : Except String FetchPayload) (xml : Option XmlConf) (tgt : String)
    (applyOk : Bool) (n : ℕ) :
    (∃ p ∈ (runToggle st (.error e) fr2 xml applyOk ⟨true, n, []⟩).lines,
      p.1 = LogLevel.error) ∧
    (∀ r, toggleCandidate (ingest st f) xml = .error r →
      ∃ p ∈ (runToggle st (.ok f) fr2 xml applyOk ⟨true, n, []⟩).lines,
        p.1 = LogLevel.error) ∧
    (∀ cand, toggleCandidate (ingest st f) xml = .ok cand →
      finalizeLayout (ingest st f).monitors (ingest st f).snapshot cand = none →
      ∃ p ∈ (runToggle st (.ok f) fr2 xml applyOk ⟨true, n, []⟩).lines,
        p.1 = LogLevel.error) ∧
    (∀ cand layout, toggleCandidate (ingest st f) xml = .ok cand →
      finalizeLayout (ingest st f).monitors (ingest st f).snapshot cand = some layout →
      (LogLevel.error, "toggle.action.apply.error") ∈
        (runToggle st (.ok f) fr2 xml false ⟨true, n, []⟩).lines) ∧
    (∀ layout, makePrimaryOp (ingest st f) tgt = some layout →
      (LogLevel.error, "toggle.make_primary.apply.error") ∈
        (runMakePrimary st (.ok f) tgt false ⟨true, n, []⟩).lines) ∧
    ((LogLevel.error, "toggle.timeout.callback.error") ∈
      (runTimeoutCallback (.error e) ⟨true, n, []⟩).lines) ∧
    ((LogLevel.error, "toggle.config.fetch.error") ∈
      (runMakePrimary st (.error e) tgt applyOk ⟨true, n, []⟩).lines) ∧
    (makePrimaryOp (ingest st f) tgt = none →
      ∀ p ∈ (runMakePrimary st (.ok f) tgt applyOk ⟨true, n, []⟩).lines,
        p.1 ≠ LogLevel.error) := by
  refine ⟨?_, ?_, ?_, ?_, ?_, ?_, ?_, ?_⟩
  · refine ⟨(LogLevel.error, "toggle.config.fetch.error"), ?_, rfl⟩
    rw [runToggle]
    refine mem_lines_emit (mem_toggleBranchLog (mem_lines_emit ?_))
    exact err_mem_getRun st e (by simp only [logInfoF, enabled_emit])
  · intro r hr
    cases r with
    | noValidLayoutAfterResolve => exact absurd hr (toggleCandidate_ne_noValid _ _)
    | noMonitorsLeft =>
      refine ⟨(LogLevel.error, "toggle.action.abort"), ?_, rfl⟩
      simp only [runToggle, toggleBranchLog, getRun_fst, hr]
      refine mem_lines_emit (mem_getRun (self_mem_emit _ _ ?_))
      simp only [logStepF, logDebugF, logInfoF, enabled_emit, enabled_getRun]
    | physicalMonitorNotFound =>
      refine ⟨(LogLevel.error, "toggle.disabled"), ?_, rfl⟩
      simp only [runToggle, toggleBranchLog, getRun_fst, hr]
      refine mem_lines_emit (self_mem_emit _ _ ?_)
      simp only [logStepF, logDebugF, logInfoF, enabled_emit, enabled_getRun]
    | noModeForMonitor =>
      refine ⟨(LogLevel.error, "toggle.disabled"), ?_, rfl⟩
      simp only [runToggle, toggleBranchLog, getRun_fst, hr]
      refine mem_lines_emit (self_mem_emit _ _ ?_)
      simp only [logStepF, logDebugF, logInfoF, enabled_emit, enabled_getRun]
  · intro cand hcand hfin
    refine ⟨(LogLevel.error, "toggle.action.abort"), ?_, rfl⟩
    simp only [runToggle, toggleBranchLog, getRun_fst, hcand, hfin]
    refine mem_lines_emit (mem_getRun (self_mem_emit _ _ ?_))
    simp only [logStepF, logDebugF, logInfoF, enabled_emit, enabled_getRun]
  · intro cand layout hcand hfin
    simp only [runToggle, toggleBranchLog, getRun_fst, hcand, hfin, Bool.false_eq_true,
      if_false]
    have hinner : (LogLevel.error, "toggle.action.apply.error") ∈
        (logErrorF (logStepF (logStepF (logStepF
          (getMonitorConfigRun st (.ok f)
            (logInfoF ⟨true, n, []⟩ "toggle.action.start")).2)))
          "toggle.action.apply.error").lines := by
      refine self_mem_emit _ _ ?_
      simp only [logStepF, logDebugF, logInfoF, enabled_emit, enabled_getRun]
    show (LogLevel.error, "toggle.action.apply.error") ∈
      (emit (emit (logErrorF (logStepF (logStepF (logStepF
          (getMonitorConfigRun st (.ok f)
            (logInfoF ⟨true, n, []⟩ "toggle.action.start")).2)))
          "toggle.action.apply.error") LogLevel.error "toggle.disabled")
        LogLevel.info "toggle.action.end").lines
    exact mem_lines_emit (mem_lines_emit hinner)
  · intro layout hmp
    simp only [runMakePrimary, getRun_fst, hmp, Bool.false_eq_true, if_false]
    refine self_mem_emit _ _ ?_
    simp only [logStepF, logDebugF, logInfoF, enabled_emit, enabled_getRun]
  · simp [runTimeoutCallback, logErrorF, emit]
  · have herr := err_mem_getRun st e
      (show (logInfoF ⟨true, n, []⟩ "toggle.make_primary.start").enabled = true by
        simp only [logInfoF, enabled_emit])
    simp only [runMakePrimary]
    split
    · exact herr
    · split
      · exact mem_lines_emit (mem_lines_emit herr)
      · exact mem_lines_emit (mem_lines_emit herr)
  · intro hnone p hp
    simp only [runMakePrimary, getRun_fst, hnone] at hp
    refine no_error_lines_getRun_ok ?_ p hp
    intro q hq
    simp only [logInfoF] at hq
    refine ne_error_of_emit hq (by decide) ?_
    intro q2 hq2
    exact absurd hq2 (List.not_mem_nil q2)

theorem claim_error_logging_witness :
    ((LogLevel.error, "toggle.action.apply.error") ∈
      (runToggle stPx (.ok fPx) (.ok fPx) none false ⟨true, 0, []⟩).lines) ∧
    ((LogLevel.error, "toggle.make_primary.apply.error") ∈
      (runMakePrimary stPx (.ok fPx) "A" false ⟨true, 0, []⟩).lines) ∧
    ((LogLevel.error, "toggle.timeout.callback.error") ∈
      (runTimeoutCallback (.error "boom") ⟨true, 0, []⟩).lines) :=
  ⟨(claim_error_logging stPx fPx "boom" (.ok fPx) none "A" false 0).2.2.2.1
      [lmApx] [lmApx] rfl rfl,
   (claim_error_logging stPx fPx "boom" (.ok fPx) none "A" false 0).2.2.2.2.1
      [lmApx, lmBpx] rfl,
   (claim_error_logging stPx fPx "boom" (.ok fPx) none "A" false 0).2.2.2.2.2.1⟩

/-- C9 counterexample fixture: a state and fetch payload under which
`_makePrimary`'s rebuilt list is empty (no logical monitors). -/
def stMt : ToggleState := ⟨[], [], [], "A"⟩

/-- C9 counterexample fixture: the fetched state has a physical monitor
but no logical monitors, so the make-primary rebuild is empty. -/
def fMt : FetchPayload := ⟨[⟨"A", "V", "P", [⟨"m1", 1920, 1080, true, false⟩]⟩], []⟩

/-- C9 counterexample to the claim as stated.  (1) With the
`debug-logging` setting off, `_emit` (logger.js:88) drops every entry —
a toggle run whose submission fails, and a throwing timer callback,
leave *zero* log lines; the error is silently swallowed.  (2) Even with
logging enabled, `_makePrimary`'s planning abort (empty rebuilt list,
toggle.js:645) returns silently: its run's lines are exactly the
start/fetch bookkeeping, with no ERROR entry. -/
theorem claim_error_logging_cex :
    ((runToggle stPx (.ok fPx) (.ok fPx) none false ⟨false, 0, []⟩).lines = [] ∧
     (runTimeoutCallback (.error "boom") ⟨false, 0, []⟩).lines = []) ∧
    (makePrimaryOp (ingest stMt fMt) "A" = none ∧
     (runMakePrimary stMt (.ok fMt) "A" false ⟨true, 0, []⟩).lines =
       [(LogLevel.info, "toggle.make_primary.start"), (LogLevel.debug, "step"),
        (LogLevel.debug, "step"), (LogLevel.info, "toggle.config.fetch.done")]) :=
  ⟨⟨rfl, rfl⟩, ⟨rfl, rfl⟩⟩

end DualMonitor
